import Mathlib

/-!
A verification development for the `discode` PTY sidecar (Rust).

The repository has two source files:
* `src/sidecar/pty-rust/src/vt_lite.rs` — a pure VT/ANSI screen emulator
  (`build_styled_frame`) that replays a byte stream onto a `rows × cols`
  grid of styled cells and emits a frame;
* `src/sidecar/pty-rust/src/main.rs` — the window supervisor and RPC
  dispatcher (sessions, windows, PTY child processes, reader threads).

This file shallowly embeds both: Rust `usize`/`u16` become `Nat`
(Rust `saturating_sub` is `Nat` subtraction, `Vec` becomes `List`),
Rust `i32` becomes `Int` with explicit range checks where the source
parses or converts, fallible operations return `Except String`, and the
effects of the supervisor (clock, PTY spawn, writes, kills) are passed
in explicitly as an `Eff` record so each handler is a pure state
transformer, mirroring the body the source runs under its locks.
-/

/-! ### A model of serde_json values

`serde_json::Number` distinguishes non-negative integers (for which
`as_u64` succeeds), negative integers and floats; only `as_u64` is ever
consulted by the sidecar, so the float payload is left abstract. -/

inductive JNum where
  | int (i : Int)
  | float
deriving DecidableEq

inductive Json where
  | null
  | bool (b : Bool)
  | num (n : JNum)
  | str (s : String)
  | arr (xs : List Json)
  | obj (fields : List (String × Json))

/-- `Value::get(key)`: field lookup, `None` on non-objects. -/
def jsonGet (j : Json) (key : String) : Option Json :=
  match j with
  | Json.obj fields => fields.lookup key
  | _ => none

/-- `Value::as_str`. -/
def jsonAsStr (j : Json) : Option String :=
  match j with
  | Json.str s => some s
  | _ => none

/-- `Number::as_u64` (via `Value::as_u64`): succeeds exactly on
non-negative integers that fit in a `u64`. -/
def jsonAsU64 (j : Json) : Option Nat :=
  match j with
  | Json.num (JNum.int i) => if 0 ≤ i ∧ i < (2 : Int) ^ 64 then some i.toNat else none
  | _ => none

/-! ### vt_lite.rs: data model -/

structure CellStyle where
  fg : Option String
  bg : Option String
  bold : Bool
  italic : Bool
  underline : Bool
  inverse : Bool
deriving DecidableEq

/-- `CellStyle::default()`. -/
def CellStyle.default : CellStyle :=
  ⟨none, none, false, false, false, false⟩

structure Cell where
  text : String
  style : CellStyle
deriving DecidableEq

structure SavedScreen where
  lines : List (List Cell)
  cursor_row : Nat
  cursor_col : Nat
  saved_row : Nat
  saved_col : Nat
  style : CellStyle
  scroll_top : Nat
  scroll_bottom : Nat
  cursor_visible : Bool
deriving DecidableEq

structure VtLite where
  cols : Nat
  rows : Nat
  lines : List (List Cell)
  cursor_row : Nat
  cursor_col : Nat
  saved_row : Nat
  saved_col : Nat
  style : CellStyle
  scroll_top : Nat
  scroll_bottom : Nat
  wrap_pending : Bool
  cursor_visible : Bool
  saved_primary : Option SavedScreen
deriving DecidableEq

/-- `blank_cell()`. -/
def blank_cell : Cell :=
  ⟨" ", CellStyle.default⟩

/-- `make_row(cols)`. -/
def make_row (cols : Nat) : List Cell :=
  List.replicate cols blank_cell

/-- `VtLite::new(cols, rows)`. -/
def VtLite.new (cols rows : Nat) : VtLite :=
  { cols := cols
    rows := rows
    lines := List.replicate rows (make_row cols)
    cursor_row := 0
    cursor_col := 0
    saved_row := 0
    saved_col := 0
    style := CellStyle.default
    scroll_top := 0
    scroll_bottom := rows - 1
    wrap_pending := false
    cursor_visible := true
    saved_primary := none }

/-! Small total list helpers mirroring slice indexing / `Vec` edits.
Rust panics on an out-of-bounds index; the total models below leave the
list unchanged instead, and the well-formedness invariant (`VtWF`,
claim C9) shows every access the source makes is in bounds. -/

/-- In-place update `l[i] = f(l[i])` (no-op out of bounds). -/
def listModify (l : List α) (i : Nat) (f : α → α) : List α :=
  match l.get? i with
  | some x => l.set i (f x)
  | none => l

/-- `Vec::remove(i)`. -/
def vecRemove (l : List α) (i : Nat) : List α :=
  l.take i ++ l.drop (i + 1)

/-- `Vec::insert(i, x)`. -/
def vecInsert (l : List α) (i : Nat) (x : α) : List α :=
  l.take i ++ x :: l.drop i

/-- Map with the element's index, mirroring indexed `for` loops that
rewrite a range of entries. -/
def mapWithIndex (f : Nat → α → α) : Nat → List α → List α
  | _, [] => []
  | i, x :: xs => f i x :: mapWithIndex f (i + 1) xs

/-! ### vt_lite.rs: parameter parsing and colours -/

/-- `str::split(';')` on the parameter characters (keeps empty parts). -/
def splitSemis : List Char → List (List Char)
  | [] => [[]]
  | c :: rest =>
    if c = ';' then [] :: splitSemis rest
    else
      match splitSemis rest with
      | [] => [[c]]
      | p :: ps => (c :: p) :: ps

/-- Value of a non-empty all-digit string (`None` otherwise). -/
def digitsVal : List Char → Option Nat
  | [] => none
  | [c] => if c.isDigit then some (c.toNat - '0'.toNat) else none
  | c :: rest =>
    if c.isDigit then
      match digitsVal rest with
      | some v => some ((c.toNat - '0'.toNat) * 10 ^ rest.length + v)
      | none => none
    else none

/-- `str::parse::<i32>()`: optional sign, at least one digit, in-range. -/
def parseI32 (cs : List Char) : Option Int :=
  match cs with
  | '+' :: rest =>
    match digitsVal rest with
    | some v => if (v : Int) ≤ 2 ^ 31 - 1 then some (v : Int) else none
    | none => none
  | '-' :: rest =>
    match digitsVal rest with
    | some v => if (v : Int) ≤ 2 ^ 31 then some (-(v : Int)) else none
    | none => none
  | _ =>
    match digitsVal cs with
    | some v => if (v : Int) ≤ 2 ^ 31 - 1 then some (v : Int) else none
    | none => none

/-- `parse_params(raw)`. -/
def parse_params (raw : List Char) : List (Option Int) :=
  if raw = [] then [none]
  else (splitSemis raw).map fun part => if part = [] then none else parseI32 part

/-- `param_or(params, index, default)`. -/
def param_or (params : List (Option Int)) (index : Nat) (dflt : Int) : Int :=
  (((params.get? index).bind id).getD dflt)

/-- The fixed 16-colour palette. -/
def ansi16Palette : List String :=
  ["#000000", "#cd3131", "#0dbc79", "#e5e510", "#2472c8", "#bc3fbc", "#11a8cd", "#e5e5e5",
   "#666666", "#f14c4c", "#23d18b", "#f5f543", "#3b8eea", "#d670d6", "#29b8db", "#ffffff"]

/-- `ansi_16_color(index)`. -/
def ansi_16_color (index : Nat) : Option String :=
  ansi16Palette.get? index

/-- One lowercase hex digit. -/
def hexDigit (n : Nat) : Char :=
  if n < 10 then Char.ofNat ('0'.toNat + n) else Char.ofNat ('a'.toNat + (n - 10))

/-- Two lowercase hex digits of a byte. -/
def hex2 (n : Nat) : String :=
  String.mk [hexDigit (n / 16 % 16), hexDigit (n % 16)]

/-- `rgb_hex(r, g, b)` (each component clamped to 0..255). -/
def rgb_hex (r g b : Int) : String :=
  "#" ++ hex2 (max 0 (min 255 r)).toNat ++ hex2 (max 0 (min 255 g)).toNat
      ++ hex2 (max 0 (min 255 b)).toNat

/-- `xterm_256_color(index)`. -/
def xterm_256_color (index : Int) : Option String :=
  if index < 0 ∨ 255 < index then none
  else if index < 16 then ansi_16_color index.toNat
  else if 232 ≤ index then
    let v := 8 + (index - 232) * 10
    some (rgb_hex v v v)
  else
    let i := index - 16
    let r := i / 36
    let g := (i % 36) / 6
    let b := i % 6
    let levels : List Int := [0, 95, 135, 175, 215, 255]
    some (rgb_hex (levels.getD r.toNat 0) (levels.getD g.toNat 0) (levels.getD b.toNat 0))

/-- `char_display_width(ch)`. -/
def char_display_width (ch : Char) : Nat :=
  let cp := ch.toNat
  if cp = 0 then 0
  else if cp < 32 ∨ (0x7f ≤ cp ∧ cp < 0xa0) then 0
  else if (0x0300 ≤ cp ∧ cp ≤ 0x036f)
      ∨ (0x1ab0 ≤ cp ∧ cp ≤ 0x1aff)
      ∨ (0x1dc0 ≤ cp ∧ cp ≤ 0x1dff)
      ∨ (0x20d0 ≤ cp ∧ cp ≤ 0x20ff)
      ∨ (0xfe20 ≤ cp ∧ cp ≤ 0xfe2f)
      ∨ cp = 0x200d
      ∨ (0xfe00 ≤ cp ∧ cp ≤ 0xfe0f) then 0
  else 1

/-! ### vt_lite.rs: grid operations -/

/-- `VtLite::scroll_region_up(top, bottom, count)`. -/
def VtLite.scroll_region_up (s : VtLite) (top bottom count : Nat) : VtLite :=
  if top ≥ bottom ∨ bottom ≥ s.rows then s
  else
    let n := min (max count 1) (bottom - top + 1)
    { s with lines := Nat.repeat (fun g => vecInsert (vecRemove g top) bottom (make_row s.cols)) n s.lines }

/-- `VtLite::scroll_region_down(top, bottom, count)`. -/
def VtLite.scroll_region_down (s : VtLite) (top bottom count : Nat) : VtLite :=
  if top ≥ bottom ∨ bottom ≥ s.rows then s
  else
    let n := min (max count 1) (bottom - top + 1)
    { s with lines := Nat.repeat (fun g => vecInsert (vecRemove g bottom) top (make_row s.cols)) n s.lines }

/-- `VtLite::line_feed()`. -/
def VtLite.line_feed (s : VtLite) : VtLite :=
  if s.scroll_top ≤ s.cursor_row ∧ s.cursor_row ≤ s.scroll_bottom then
    if s.cursor_row = s.scroll_bottom then
      s.scroll_region_up s.scroll_top s.scroll_bottom 1
    else
      { s with cursor_row := min (s.cursor_row + 1) (s.rows - 1) }
  else
    { s with cursor_row := min (s.cursor_row + 1) (s.rows - 1) }

/-- `VtLite::reverse_index()`. -/
def VtLite.reverse_index (s : VtLite) : VtLite :=
  if s.scroll_top ≤ s.cursor_row ∧ s.cursor_row ≤ s.scroll_bottom then
    if s.cursor_row = s.scroll_top then
      s.scroll_region_down s.scroll_top s.scroll_bottom 1
    else
      { s with cursor_row := s.cursor_row - 1 }
  else
    { s with cursor_row := s.cursor_row - 1 }

/-- `VtLite::erase_line(mode)`. -/
def VtLite.erase_line (s : VtLite) (mode : Int) : VtLite :=
  if mode = 0 then
    { s with lines := listModify s.lines s.cursor_row fun row =>
        mapWithIndex (fun i c => if s.cursor_col ≤ i ∧ i < s.cols then blank_cell else c) 0 row }
  else if mode = 1 then
    { s with lines := listModify s.lines s.cursor_row fun row =>
        mapWithIndex (fun i c => if i ≤ min s.cursor_col (s.cols - 1) then blank_cell else c) 0 row }
  else if mode = 2 then
    { s with lines := listModify s.lines s.cursor_row fun _ => make_row s.cols }
  else s

/-- `VtLite::erase_display(mode)`. -/
def VtLite.erase_display (s : VtLite) (mode : Int) : VtLite :=
  if mode = 0 then
    let s1 := s.erase_line 0
    let g := mapWithIndex (fun i row => if s1.cursor_row + 1 ≤ i ∧ i < s1.rows then make_row s1.cols else row) 0 s1.lines
    { s1 with lines := g }
  else if mode = 1 then
    let g := mapWithIndex (fun i row => if i < s.cursor_row then make_row s.cols else row) 0 s.lines
    let s1 := { s with lines := g }
    s1.erase_line 1
  else if mode = 2 ∨ mode = 3 then
    { s with lines := mapWithIndex (fun i row => if i < s.rows then make_row s.cols else row) 0 s.lines }
  else s

/-- `write_char`, deferred-wrap flush: `if self.wrap_pending { ... }`. -/
def VtLite.wrapStep (s : VtLite) : VtLite :=
  if s.wrap_pending then { ({ s with cursor_col := 0 } : VtLite).line_feed with wrap_pending := false }
  else s

/-- `write_char`, column overflow: `if self.cursor_col >= self.cols { ... }`. -/
def VtLite.overflowStep (s : VtLite) : VtLite :=
  if s.cursor_col ≥ s.cols then ({ s with cursor_col := 0 } : VtLite).line_feed
  else s

/-- `write_char`, the cell store `self.lines[r][c] = Cell { .. }`. -/
def VtLite.putCell (s : VtLite) (ch : Char) : VtLite :=
  { s with lines := listModify s.lines s.cursor_row fun row =>
      row.set s.cursor_col ⟨String.singleton ch, s.style⟩ }

/-- `write_char`, cursor advance / deferred wrap at the last column. -/
def VtLite.advanceStep (s : VtLite) : VtLite :=
  if s.cursor_col ≥ s.cols - 1 then { s with wrap_pending := true }
  else { s with cursor_col := s.cursor_col + 1 }

/-- `VtLite::write_char(ch)`: the zero-width append, or the sequence
wrap-flush, overflow wrap, cell store, cursor advance. -/
def VtLite.write_char (s : VtLite) (ch : Char) : VtLite :=
  if s.rows = 0 ∨ s.cols = 0 then s
  else if char_display_width ch = 0 then
    let prev_col := if s.cursor_col > 0 then s.cursor_col - 1 else s.cursor_col
    if s.cursor_row < s.rows ∧ prev_col < s.cols then
      { s with lines := listModify s.lines s.cursor_row fun row =>
          listModify row prev_col fun c => { c with text := c.text.push ch } }
    else s
  else
    (((s.wrapStep).overflowStep).putCell ch).advanceStep

/-! ### vt_lite.rs: SGR -/

/-- One iteration body of the `apply_sgr` loop at the parameter `code`,
with `rest` the parameters after it (`params[i+1..]`); returns the new
style and how many extra parameter slots the iteration consumed. -/
def sgrStep (st : CellStyle) (code : Int) (rest : List (Option Int)) : CellStyle × Nat :=
  if code = 0 then (CellStyle.default, 0)
  else if code = 1 then ({ st with bold := true }, 0)
  else if code = 3 then ({ st with italic := true }, 0)
  else if code = 4 then ({ st with underline := true }, 0)
  else if code = 7 then ({ st with inverse := true }, 0)
  else if code = 22 then ({ st with bold := false }, 0)
  else if code = 23 then ({ st with italic := false }, 0)
  else if code = 24 then ({ st with underline := false }, 0)
  else if code = 27 then ({ st with inverse := false }, 0)
  else if 30 ≤ code ∧ code ≤ 37 then ({ st with fg := ansi_16_color (code - 30).toNat }, 0)
  else if code = 39 then ({ st with fg := none }, 0)
  else if 40 ≤ code ∧ code ≤ 47 then ({ st with bg := ansi_16_color (code - 40).toNat }, 0)
  else if code = 49 then ({ st with bg := none }, 0)
  else if 90 ≤ code ∧ code ≤ 97 then ({ st with fg := ansi_16_color (code - 90 + 8).toNat }, 0)
  else if 100 ≤ code ∧ code ≤ 107 then ({ st with bg := ansi_16_color (code - 100 + 8).toNat }, 0)
  else if code = 38 ∨ code = 48 then
    let is_fg := code = 38
    let mode := (rest.get? 0).bind id
    if mode = some 2 then
      let r := (rest.get? 1).bind id
      let g := (rest.get? 2).bind id
      let b := (rest.get? 3).bind id
      (match r, g, b with
       | some rv, some gv, some bv =>
         let color := rgb_hex rv gv bv
         if is_fg then { st with fg := some color } else { st with bg := some color }
       | _, _, _ => st, 4)
    else if mode = some 5 then
      (match ((rest.get? 1).bind id).bind xterm_256_color with
       | some c => if is_fg then { st with fg := some c } else { st with bg := some c }
       | none => st, 2)
    else (st, 0)
  else (st, 0)

/-- The `apply_sgr` `while i < params.len()` loop over the remaining
parameter list; the fuel is an upper bound on the iteration count and
`params.length` always suffices since each iteration consumes at least
one slot. -/
def applySgrGo : Nat → CellStyle → List (Option Int) → CellStyle
  | 0, st, _ => st
  | _, st, [] => st
  | fuel + 1, st, p :: rest =>
    let code := p.getD 0
    let r := sgrStep st code rest
    applySgrGo fuel r.1 (rest.drop r.2)

/-- `VtLite::apply_sgr(params)` as a function on the style. -/
def apply_sgr (params : List (Option Int)) (st : CellStyle) : CellStyle :=
  if params = [] then CellStyle.default
  else applySgrGo params.length st params

/-! ### vt_lite.rs: alternate screen, reset, CSI dispatch -/

/-- `VtLite::enter_alt_screen()`. -/
def VtLite.enter_alt_screen (s : VtLite) : VtLite :=
  if s.saved_primary.isSome then s
  else
    { s with
      saved_primary := some
        { lines := s.lines
          cursor_row := s.cursor_row
          cursor_col := s.cursor_col
          saved_row := s.saved_row
          saved_col := s.saved_col
          style := s.style
          scroll_top := s.scroll_top
          scroll_bottom := s.scroll_bottom
          cursor_visible := s.cursor_visible }
      lines := List.replicate s.rows (make_row s.cols)
      cursor_row := 0
      cursor_col := 0
      saved_row := 0
      saved_col := 0
      style := CellStyle.default
      scroll_top := 0
      scroll_bottom := s.rows - 1
      wrap_pending := false }

/-- `VtLite::leave_alt_screen()`. -/
def VtLite.leave_alt_screen (s : VtLite) : VtLite :=
  match s.saved_primary with
  | none => s
  | some saved =>
    { s with
      lines := saved.lines
      cursor_row := min saved.cursor_row (s.rows - 1)
      cursor_col := min saved.cursor_col (s.cols - 1)
      saved_row := min saved.saved_row (s.rows - 1)
      saved_col := min saved.saved_col (s.cols - 1)
      style := saved.style
      scroll_top := min saved.scroll_top (s.rows - 1)
      scroll_bottom := min saved.scroll_bottom (s.rows - 1)
      cursor_visible := saved.cursor_visible
      wrap_pending := false
      saved_primary := none }

/-- `VtLite::reset()`. -/
def VtLite.reset (s : VtLite) : VtLite :=
  { s with
    lines := List.replicate s.rows (make_row s.cols)
    cursor_row := 0
    cursor_col := 0
    saved_row := 0
    saved_col := 0
    style := CellStyle.default
    scroll_top := 0
    scroll_bottom := s.rows - 1
    wrap_pending := false
    cursor_visible := true
    saved_primary := none }

/-- The body of the private-mode `h`/`l` loop over the parameters. -/
def VtLite.privateMode (set : Bool) (s : VtLite) (p : Option Int) : VtLite :=
  if p = some 25 then { s with cursor_visible := set }
  else if p = some 1049 then
    if set then s.enter_alt_screen else s.leave_alt_screen
  else s

/-- The dispatch `match final_char` of `handle_csi`, taking the
parsed parameters and the private marker. -/
def VtLite.csiDispatch (s : VtLite) (priv : Bool) (params : List (Option Int)) (final_char : Char) : VtLite :=
  if final_char = 'A' then
    let n := (max (param_or params 0 1) 1).toNat
    { s with wrap_pending := false, cursor_row := s.cursor_row - n }
  else if final_char = 'B' then
    let n := (max (param_or params 0 1) 1).toNat
    { s with wrap_pending := false, cursor_row := min (s.cursor_row + n) (s.rows - 1) }
  else if final_char = 'C' then
    let n := (max (param_or params 0 1) 1).toNat
    { s with wrap_pending := false, cursor_col := min (s.cursor_col + n) (s.cols - 1) }
  else if final_char = 'D' then
    let n := (max (param_or params 0 1) 1).toNat
    { s with wrap_pending := false, cursor_col := s.cursor_col - n }
  else if final_char = 'G' then
    let col := (max (param_or params 0 1) 1).toNat
    { s with wrap_pending := false, cursor_col := min (col - 1) (s.cols - 1) }
  else if final_char = 'd' then
    let row := (max (param_or params 0 1) 1).toNat
    { s with wrap_pending := false, cursor_row := min (row - 1) (s.rows - 1) }
  else if final_char = 'H' ∨ final_char = 'f' then
    let row := (max (param_or params 0 1) 1).toNat
    let col := (max (param_or params 1 1) 1).toNat
    { s with wrap_pending := false
             cursor_row := min (row - 1) (s.rows - 1)
             cursor_col := min (col - 1) (s.cols - 1) }
  else if final_char = 'J' then
    ({ s with wrap_pending := false }).erase_display (param_or params 0 0)
  else if final_char = 'K' then
    ({ s with wrap_pending := false }).erase_line (param_or params 0 0)
  else if final_char = 'm' then
    { s with style := apply_sgr params s.style }
  else if final_char = 'r' then
    let top := (max (param_or params 0 1) 1).toNat
    let bottom := (max (param_or params 1 (s.rows : Int)) 1).toNat
    let top0 := min (top - 1) (s.rows - 1)
    let bottom0 := min (bottom - 1) (s.rows - 1)
    if top0 < bottom0 then
      { s with scroll_top := top0, scroll_bottom := bottom0
               cursor_row := top0, cursor_col := 0, wrap_pending := false }
    else s
  else if final_char = 's' then
    { s with saved_row := s.cursor_row, saved_col := s.cursor_col, wrap_pending := false }
  else if final_char = 'u' then
    { s with cursor_row := min s.saved_row (s.rows - 1)
             cursor_col := min s.saved_col (s.cols - 1)
             wrap_pending := false }
  else if (final_char = 'h' ∨ final_char = 'l') ∧ priv then
    let set := final_char = 'h'
    { params.foldl (VtLite.privateMode set) s with wrap_pending := false }
  else s

/-- `VtLite::handle_csi(raw, final_char)`. -/
def VtLite.handle_csi (s : VtLite) (raw : List Char) (final_char : Char) : VtLite :=
  let priv := raw.head? = some '?'
  let params_raw := if priv then raw.tail else raw
  s.csiDispatch priv (parse_params params_raw) final_char

/-! ### vt_lite.rs: the feed loop

`VtLite::feed` walks the character list; each iteration of the `while`
loop consumes at least one character (or `break`s, modelled by emptying
the input), so `vtRun` with fuel `input.length` runs the loop to
completion. -/

/-- Scan for the CSI final byte (`0x40..=0x7e`): returns the parameter
characters before it, the final byte, and the remaining input; `none`
models the `break` when the input ends first. -/
def csiScan : List Char → Option (List Char × Char × List Char)
  | [] => none
  | c :: rest =>
    if 0x40 ≤ c.toNat ∧ c.toNat ≤ 0x7e then some ([], c, rest)
    else
      match csiScan rest with
      | none => none
      | some (p, f, r) => some (c :: p, f, r)

/-- Scan for the OSC terminator (BEL, or ESC `\`): returns the input
after the terminator, `none` models the unterminated `break`. -/
def oscScan : List Char → Option (List Char)
  | [] => none
  | c :: rest =>
    if c.toNat = 0x07 then some rest
    else if c.toNat = 0x1b then
      match rest with
      | [] => none
      | c2 :: rest2 => if c2 = '\\' then some rest2 else oscScan rest
    else oscScan rest

/-- `'\t'`: write spaces up to the next multiple of 8. -/
def VtLite.tabWrite (s : VtLite) : VtLite :=
  let spaces := 8 - s.cursor_col % 8
  Nat.repeat (fun st => st.write_char ' ') spaces s

/-- One iteration of the `feed` loop: the state update and the input
that remains (empty on `break`). -/
def vtStep (s : VtLite) (cs : List Char) : VtLite × List Char :=
  match cs with
  | [] => (s, [])
  | ch :: rest =>
    if ch = '\x1b' then
      match rest with
      | [] => (s, [])
      | next :: rest2 =>
        if next = '[' then
          match csiScan rest2 with
          | none => (s, [])
          | some (p, f, r) => (s.handle_csi p f, r)
        else if next = ']' then
          match oscScan rest2 with
          | none => (s, [])
          | some r => (s, r)
        else if next = '7' then
          ({ s with saved_row := s.cursor_row, saved_col := s.cursor_col, wrap_pending := false }, rest2)
        else if next = '8' then
          ({ s with cursor_row := min s.saved_row (s.rows - 1)
                    cursor_col := min s.saved_col (s.cols - 1)
                    wrap_pending := false }, rest2)
        else if next = 'D' then
          (({ s with wrap_pending := false } : VtLite).line_feed, rest2)
        else if next = 'E' then
          (({ s with wrap_pending := false, cursor_col := 0 } : VtLite).line_feed, rest2)
        else if next = 'M' then
          (({ s with wrap_pending := false } : VtLite).reverse_index, rest2)
        else if next = 'c' then
          (s.reset, rest2)
        else (s, rest2)
    else if ch = '\r' then
      ({ s with cursor_col := 0, wrap_pending := false }, rest)
    else if ch = '\n' then
      (({ s with wrap_pending := false } : VtLite).line_feed, rest)
    else if ch = '\x08' then
      ({ s with wrap_pending := false, cursor_col := s.cursor_col - 1 }, rest)
    else if ch = '\t' then
      (s.tabWrite, rest)
    else if ch.toNat < 0x20 ∨ ch.toNat = 0x7f then
      (s, rest)
    else
      (s.write_char ch, rest)

/-- The fueled feed loop. -/
def vtRun : Nat → VtLite → List Char → VtLite
  | _, s, [] => s
  | 0, s, _ :: _ => s
  | fuel + 1, s, c :: cs =>
    let r := vtStep s (c :: cs)
    vtRun fuel r.1 r.2

/-- `VtLite::feed(input)`. -/
def VtLite.feed (s : VtLite) (input : List Char) : VtLite :=
  vtRun input.length s input

/-! ### vt_lite.rs: frame emission -/

/-- An emitted segment, mirroring `segment_json` (`fg`/`bg` present only
when set, boolean attributes emitted only when true). -/
structure Segment where
  text : String
  fg : Option String
  bg : Option String
  bold : Bool
  italic : Bool
  underline : Bool
deriving DecidableEq

structure FrameLine where
  segments : List Segment
deriving DecidableEq

/-- The frame object built by `into_frame`. -/
structure Frame where
  cols : Nat
  rows : Nat
  lines : List FrameLine
  cursorRow : Nat
  cursorCol : Nat
  cursorVisible : Bool
deriving DecidableEq

/-- `style_key(style)`. -/
def style_key (style : CellStyle) : String :=
  (style.fg.getD "") ++ "|" ++ (style.bg.getD "") ++ "|"
    ++ (if style.bold then "1" else "0") ++ "|"
    ++ (if style.italic then "1" else "0") ++ "|"
    ++ (if style.underline then "1" else "0")

/-- `applied_style(style)`: fold `inverse` away by swapping colours. -/
def applied_style (style : CellStyle) : CellStyle :=
  if !style.inverse then style
  else
    { fg := style.bg
      bg := style.fg
      bold := style.bold
      italic := style.italic
      underline := style.underline
      inverse := false }

/-- `segment_json(text, style)`. -/
def segment_json (text : String) (style : CellStyle) : Segment :=
  ⟨text, style.fg, style.bg, style.bold, style.italic, style.underline⟩

/-- The per-row `end` index: trailing cells whose `text == " "` are
trimmed. -/
def rowEnd (row : List Cell) : Nat :=
  (row.reverse.dropWhile fun c => c.text = " ").length

/-- The segment-coalescing loop of `into_frame` over the first `end`
cells, carrying the current text and style. -/
def segsOf (cells : List Cell) (curText : String) (curStyle : CellStyle) : List Segment :=
  match cells with
  | [] => [segment_json curText curStyle]
  | c :: rest =>
    let st := applied_style c.style
    if style_key st = style_key curStyle then segsOf rest (curText ++ c.text) curStyle
    else segment_json curText curStyle :: segsOf rest c.text st

/-- One line of the frame for a grid row. -/
def lineValue (row : List Cell) : FrameLine :=
  let e := rowEnd row
  if e = 0 then ⟨[⟨"", none, none, false, false, false⟩]⟩
  else ⟨segsOf (row.take e) "" (applied_style ((row.headD blank_cell).style))⟩

/-- `VtLite::into_frame()`. -/
def VtLite.into_frame (s : VtLite) : Frame :=
  { cols := s.cols
    rows := s.rows
    lines := s.lines.map lineValue
    cursorRow := min s.cursor_row (s.rows - 1)
    cursorCol := min s.cursor_col (s.cols - 1)
    cursorVisible := s.cursor_visible }

/-- Rust `clamp` on integers (`lo ≤ hi`). -/
def natClamp (x lo hi : Nat) : Nat :=
  max lo (min x hi)

/-- `build_styled_frame(buffer, cols, rows)` (the spec's `build_frame`),
on the decoded character sequence of the buffer. -/
def build_styled_frame (buffer : List Char) (cols rows : Nat) : Frame :=
  let safe_cols := natClamp cols 20 300
  let safe_rows := natClamp rows 6 200
  ((VtLite.new safe_cols safe_rows).feed buffer).into_frame

/-! ### UTF-8 (std library behaviour used by main.rs)

`String::from_utf8_lossy` decodes bytes, replacing each invalid
sequence with U+FFFD; appending the result to the buffer `String`
re-encodes it. Buffers are modelled as byte lists, so the round trip is
`utf8Encode (utf8DecodeLossy bytes)`. -/

/-- UTF-8 encoding of one scalar value. -/
def utf8EncodeChar (c : Char) : List Nat :=
  let n := c.toNat
  if n < 0x80 then [n]
  else if n < 0x800 then [0xc0 + n / 64, 0x80 + n % 64]
  else if n < 0x10000 then [0xe0 + n / 4096, 0x80 + n / 64 % 64, 0x80 + n % 64]
  else [0xf0 + n / 262144, 0x80 + n / 4096 % 64, 0x80 + n / 64 % 64, 0x80 + n % 64]

/-- UTF-8 encoding of a character sequence. -/
def utf8Encode (cs : List Char) : List Nat :=
  cs.flatMap utf8EncodeChar

/-- Is `b` a UTF-8 continuation byte? -/
def isCont (b : Nat) : Bool :=
  0x80 ≤ b ∧ b ≤ 0xbf

/-- Lossy UTF-8 decoding (the replacement policy of
`String::from_utf8_lossy`: one U+FFFD per rejected maximal subpart).
Each step consumes at least one byte, so fuel `bytes.length` runs the
decoder to completion. -/
def utf8DecodeGo : Nat → List Nat → List Char
  | 0, _ => []
  | _, [] => []
  | fuel + 1, b0 :: rest =>
    if b0 < 0x80 then Char.ofNat b0 :: utf8DecodeGo fuel rest
    else if 0xc2 ≤ b0 ∧ b0 ≤ 0xdf then
      match rest with
      | b1 :: rest1 =>
        if isCont b1 then Char.ofNat ((b0 - 0xc0) * 64 + (b1 - 0x80)) :: utf8DecodeGo fuel rest1
        else '�' :: utf8DecodeGo fuel rest
      | [] => ['�']
    else if 0xe0 ≤ b0 ∧ b0 ≤ 0xef then
      match rest with
      | b1 :: rest1 =>
        let okB1 : Bool :=
          if b0 = 0xe0 then 0xa0 ≤ b1 ∧ b1 ≤ 0xbf
          else if b0 = 0xed then 0x80 ≤ b1 ∧ b1 ≤ 0x9f
          else isCont b1
        if okB1 then
          match rest1 with
          | b2 :: rest2 =>
            if isCont b2 then
              Char.ofNat ((b0 - 0xe0) * 4096 + (b1 - 0x80) * 64 + (b2 - 0x80)) :: utf8DecodeGo fuel rest2
            else '�' :: utf8DecodeGo fuel rest1
          | [] => ['�']
        else '�' :: utf8DecodeGo fuel rest
      | [] => ['�']
    else if 0xf0 ≤ b0 ∧ b0 ≤ 0xf4 then
      match rest with
      | b1 :: rest1 =>
        let okB1 : Bool :=
          if b0 = 0xf0 then 0x90 ≤ b1 ∧ b1 ≤ 0xbf
          else if b0 = 0xf4 then 0x80 ≤ b1 ∧ b1 ≤ 0x8f
          else isCont b1
        if okB1 then
          match rest1 with
          | b2 :: rest2 =>
            if isCont b2 then
              match rest2 with
              | b3 :: rest3 =>
                if isCont b3 then
                  Char.ofNat ((b0 - 0xf0) * 262144 + (b1 - 0x80) * 4096 + (b2 - 0x80) * 64 + (b3 - 0x80))
                    :: utf8DecodeGo fuel rest3
                else '�' :: utf8DecodeGo fuel rest2
              | [] => ['�']
            else '�' :: utf8DecodeGo fuel rest1
          | [] => ['�']
        else '�' :: utf8DecodeGo fuel rest
      | [] => ['�']
    else '�' :: utf8DecodeGo fuel rest

/-- `String::from_utf8_lossy(bytes)` as a character list. -/
def utf8DecodeLossy (bytes : List Nat) : List Char :=
  utf8DecodeGo bytes.length bytes

/-- Re-encoding after lossy decoding (what `push_str(from_utf8_lossy(..))`
appends to the buffer, in bytes). -/
def lossyBytes (bytes : List Nat) : List Nat :=
  utf8Encode (utf8DecodeLossy bytes)

/-- The decoded string of a buffer, as a character list. -/
def bufferChars (bytes : List Nat) : List Char :=
  utf8DecodeLossy bytes

/-- The bytes of an ASCII string (used for the synthetic marker line,
which is pure ASCII). -/
def asciiBytes (s : String) : List Nat :=
  s.toList.map Char.toNat

/-! ### main.rs: data model -/

structure WindowSnapshot where
  session_name : String
  window_name : String
  status : String
  pid : Option Nat
  started_at : Option Int
  exited_at : Option Int
  exit_code : Option Int
  signal : Option String
  cols : Nat
  rows : Nat
deriving DecidableEq

/-- A window record. The PTY writer, master and child handles are
owned boxes whose contents the model never inspects, so each is
modelled by whether it is present (`Option<Box<..>>` as `Bool`). The
raw buffer is the byte content of the Rust `String`. -/
structure WindowState where
  snapshot : WindowSnapshot
  buffer : List Nat
  writer : Bool
  master : Bool
  child : Bool
deriving DecidableEq

/-- The process-wide registry. The two `HashMap`s are modelled as
association lists (first binding wins on lookup; claims never depend on
iteration order). -/
structure SidecarState where
  sessions : List (String × List (String × String))
  windows : List (String × WindowState)
  max_buffer_bytes : Nat

/-- `SidecarState::new()`. -/
def SidecarState.new : SidecarState :=
  { sessions := [], windows := [], max_buffer_bytes := 512 * 1024 }

/-- Association-list update (`HashMap::insert` / assigning through an
`entry`): replaces the first binding or appends. -/
def assocSet : List (String × α) → String → α → List (String × α)
  | [], key, v => [(key, v)]
  | (k, x) :: rest, key, v =>
    if k = key then (key, v) :: rest else (k, x) :: assocSet rest key v

/-- `entry(key).or_insert_with(default)` restricted to its effect on the
map. -/
def insertIfAbsent (m : List (String × α)) (key : String) (v : α) : List (String × α) :=
  match m.lookup key with
  | some _ => m
  | none => m ++ [(key, v)]

/-- `window_key(session_name, window_name)`. -/
def window_key (session_name window_name : String) : String :=
  session_name ++ ":" ++ window_name

/-- The idle window record both `get_or_create_session` and
`start_window` insert for a missing key. -/
def idleWindow (session_name window_name : String) : WindowState :=
  { snapshot :=
      { session_name := session_name
        window_name := window_name
        status := "idle"
        pid := none
        started_at := none
        exited_at := none
        exit_code := none
        signal := none
        cols := 140
        rows := 40 }
    buffer := []
    writer := false
    master := false
    child := false }

/-- The outcomes of the environment interactions a single request (or
reader-thread iteration) can perform: the clock, the PTY
open/spawn/reader-clone/writer-take step of `start_window` (yielding the
child's pid on success), the key write, the flush, and the child kill. -/
structure Eff where
  now : Int
  spawn : Except String (Option Nat)
  write : Except String Unit
  flush : Except String Unit
  kill : Except String Unit

/-! ### main.rs: parameter helpers -/

/-- `get_str(params, key)`. -/
def get_str (params : Json) (key : String) : Except String String :=
  match (jsonGet params key).bind jsonAsStr with
  | some v => Except.ok v
  | none => Except.error ("missing or invalid '" ++ key ++ "'")

/-- `get_opt_str(params, key)`. -/
def get_opt_str (params : Json) (key : String) : Option String :=
  (jsonGet params key).bind jsonAsStr

/-- `get_opt_u16(params, key)`. -/
def get_opt_u16 (params : Json) (key : String) : Option Nat :=
  match (jsonGet params key).bind jsonAsU64 with
  | some v => some (natClamp v 10 400)
  | none => none

/-- `get_u16(params, key, default)`. -/
def get_u16 (params : Json) (key : String) (dflt : Nat) : Nat :=
  (get_opt_u16 params key).getD dflt

/-! ### main.rs: reader thread

The per-window background reader loop, one function per `match` arm of
`reader.read(&mut buf)` (`Ok(0)` = EOF, `Ok(n)` = data, `Err` = read
error); each models the body run under the window lock. -/

/-- Rust `String::is_char_boundary(i)` over the buffer's bytes: offset
0 is a boundary; past-the-end offsets are boundaries only at exactly
the length; otherwise the byte at `i` must not be a UTF-8 continuation
byte. -/
def is_char_boundary (b : List Nat) (i : Nat) : Bool :=
  if i = 0 then true
  else
    match b.get? i with
    | none => i = b.length
    | some byte => !(isCont byte)

/-- Reader thread, `Ok(n)` with `n > 0` bytes: lossy-decode and append
under the window lock; if the buffer's byte length now exceeds the cap,
re-slice it as `w.buffer[keep..]` with `keep = len - cap`. Rust string
slicing panics when `keep` is not a UTF-8 char boundary: the `Bool` is
`false` on that panic path, and the window then keeps the appended,
un-truncated buffer (the reader thread dies there and the window lock
is left poisoned). -/
def readerChunk (w : WindowState) (chunk : List Nat) (max_buffer : Nat) :
    WindowState × Bool :=
  let b := w.buffer ++ lossyBytes chunk
  if b.length > max_buffer then
    let keep := b.length - max_buffer
    if is_char_boundary b keep then ({ w with buffer := b.drop keep }, true)
    else ({ w with buffer := b }, false)
  else ({ w with buffer := b }, true)

/-- Reader thread, `Ok(0)` (EOF). -/
def readerEof (w : WindowState) (now : Int) : WindowState :=
  if w.snapshot.status = "running" ∨ w.snapshot.status = "starting" then
    { w with snapshot := { w.snapshot with status := "exited", exited_at := some now } }
  else w

/-- Reader thread, `Err(_)`. -/
def readerErr (w : WindowState) (now : Int) : WindowState :=
  { w with snapshot := { w.snapshot with status := "error", exited_at := some now } }

/-! ### main.rs: start_window and handle_request -/

/-- `start_window(state, session_name, window_name, command)`.

Returns the call's result, the updated registry, and whether the
PTY-open/spawn step was reached (false exactly on the running-window
early return). The spawned command, cwd and environment overlay only
affect the child process, which is outside the model; the spawn outcome
arrives through `eff.spawn`. -/
def start_window (st : SidecarState) (session_name window_name _command : String)
    (eff : Eff) : Except String Unit × SidecarState × Bool :=
  let key := window_key session_name window_name
  let windows1 := insertIfAbsent st.windows key (idleWindow session_name window_name)
  let w := ((windows1.lookup key).getD (idleWindow session_name window_name))
  if w.child ∧ w.snapshot.status = "running" then
    (Except.ok (), { st with windows := windows1 }, false)
  else
    let w1 := { w with
      snapshot := { w.snapshot with
        status := "starting"
        started_at := some eff.now
        exited_at := none
        exit_code := none
        signal := none }
      buffer := [] }
    match eff.spawn with
    | Except.error e =>
      (Except.error e, { st with windows := assocSet windows1 key w1 }, true)
    | Except.ok pid =>
      let marker := asciiBytes ("[runtime] process started (pid=" ++ toString (pid.getD 0) ++ ")\n")
      let w2 := { w1 with
        snapshot := { w1.snapshot with status := "running", pid := pid }
        master := true
        child := true
        writer := true
        buffer := w1.buffer ++ marker }
      (Except.ok (), { st with windows := assocSet windows1 key w2 }, true)

/-- `with_window(state, session_name, window_name, f)`: clone the
window handle out of the registry, run `f` under its lock, store the
updated record back. -/
def with_window (st : SidecarState) (session_name window_name : String)
    (f : WindowState → Except String (α × WindowState)) :
    Except String α × SidecarState :=
  let key := window_key session_name window_name
  match st.windows.lookup key with
  | none => (Except.error ("window not found: " ++ key), st)
  | some w =>
    match f w with
    | Except.error e => (Except.error e, st)
    | Except.ok (a, w1) => (Except.ok a, { st with windows := assocSet st.windows key w1 })

/-- `Option` serialisation (`None` becomes JSON `null`). -/
def optJson (f : α → Json) : Option α → Json
  | none => Json.null
  | some x => f x

/-- The snapshot object emitted by `list_windows`. -/
def snapshotJson (s : WindowSnapshot) : Json :=
  Json.obj
    [("sessionName", Json.str s.session_name),
     ("windowName", Json.str s.window_name),
     ("status", Json.str s.status),
     ("pid", optJson (fun n => Json.num (JNum.int n)) s.pid),
     ("startedAt", optJson (fun n => Json.num (JNum.int n)) s.started_at),
     ("exitedAt", optJson (fun n => Json.num (JNum.int n)) s.exited_at),
     ("exitCode", optJson (fun n => Json.num (JNum.int n)) s.exit_code),
     ("signal", optJson Json.str s.signal)]

/-- The JSON of an emitted segment (`segment_json` in the source):
`text` always, colours when present, booleans when true. -/
def Segment.toJson (seg : Segment) : Json :=
  Json.obj
    ([("text", Json.str seg.text)]
      ++ (match seg.fg with | some fg => [("fg", Json.str fg)] | none => [])
      ++ (match seg.bg with | some bg => [("bg", Json.str bg)] | none => [])
      ++ (if seg.bold then [("bold", Json.bool true)] else [])
      ++ (if seg.italic then [("italic", Json.bool true)] else [])
      ++ (if seg.underline then [("underline", Json.bool true)] else []))

/-- The JSON object `into_frame` builds. -/
def Frame.toJson (f : Frame) : Json :=
  Json.obj
    [("cols", Json.num (JNum.int f.cols)),
     ("rows", Json.num (JNum.int f.rows)),
     ("lines", Json.arr (f.lines.map fun l => Json.obj [("segments", Json.arr (l.segments.map Segment.toJson))])),
     ("cursorRow", Json.num (JNum.int f.cursorRow)),
     ("cursorCol", Json.num (JNum.int f.cursorCol)),
     ("cursorVisible", Json.bool f.cursorVisible)]

/-- The closure `stop_window` runs under the window lock: kill the
child if there is one, mark the window exited, drop the handles. -/
def stop_window_body (eff : Eff) (w : WindowState) : Except String (Bool × WindowState) :=
  if w.child then
    match eff.kill with
    | Except.error e => Except.error ("kill failed: " ++ e)
    | Except.ok () =>
      Except.ok (true, { w with
        snapshot := { w.snapshot with
          status := "exited"
          exited_at := some eff.now
          signal := some "SIGTERM" }
        child := false
        master := false
        writer := false })
  else Except.ok (false, w)

/-- The per-window body of the `dispose` loop. -/
def disposeWindow (w : WindowState) (now : Int) : WindowState :=
  { w with
    child := false
    writer := false
    master := false
    snapshot := { w.snapshot with status := "exited", exited_at := some now } }

structure RpcRequest where
  method : String
  params : Json

/-- `handle_request(state, req, should_shutdown)`: the result value or
error, the updated registry, and the shutdown flag. -/
def handle_request (st : SidecarState) (req : RpcRequest) (eff : Eff) :
    Except String Json × SidecarState × Bool :=
  if req.method = "hello" then
    (Except.ok (Json.obj [("version", Json.num (JNum.int 1))]), st, false)
  else if req.method = "get_or_create_session" then
    match get_str req.params "projectName" with
    | Except.error e => (Except.error e, st, false)
    | Except.ok project_name =>
      let first_window_name := get_opt_str req.params "firstWindowName"
      let st1 := { st with sessions := insertIfAbsent st.sessions project_name [] }
      let st2 :=
        match first_window_name with
        | some window_name =>
          let key := window_key project_name window_name
          { st1 with windows := insertIfAbsent st1.windows key (idleWindow project_name window_name) }
        | none => st1
      (Except.ok (Json.obj [("sessionName", Json.str project_name)]), st2, false)
  else if req.method = "set_session_env" then
    match get_str req.params "sessionName", get_str req.params "key", get_str req.params "value" with
    | Except.ok session_name, Except.ok key, Except.ok value =>
      let env := (st.sessions.lookup session_name).getD []
      let st1 := { st with sessions := assocSet st.sessions session_name (assocSet env key value) }
      (Except.ok (Json.obj [("ok", Json.bool true)]), st1, false)
    | Except.error e, _, _ => (Except.error e, st, false)
    | _, Except.error e, _ => (Except.error e, st, false)
    | _, _, Except.error e => (Except.error e, st, false)
  else if req.method = "window_exists" then
    match get_str req.params "sessionName", get_str req.params "windowName" with
    | Except.ok session_name, Except.ok window_name =>
      let key := window_key session_name window_name
      (Except.ok (Json.obj [("exists", Json.bool (st.windows.lookup key).isSome)]), st, false)
    | Except.error e, _ => (Except.error e, st, false)
    | _, Except.error e => (Except.error e, st, false)
  else if req.method = "start_window" then
    match get_str req.params "sessionName", get_str req.params "windowName", get_str req.params "command" with
    | Except.ok session_name, Except.ok window_name, Except.ok command =>
      let r := start_window st session_name window_name command eff
      (match r.1 with
       | Except.error e => (Except.error e, r.2.1, false)
       | Except.ok () => (Except.ok (Json.obj [("ok", Json.bool true)]), r.2.1, false))
    | Except.error e, _, _ => (Except.error e, st, false)
    | _, Except.error e, _ => (Except.error e, st, false)
    | _, _, Except.error e => (Except.error e, st, false)
  else if req.method = "type_keys" then
    match get_str req.params "sessionName", get_str req.params "windowName", get_str req.params "keys" with
    | Except.ok session_name, Except.ok window_name, Except.ok _keys =>
      let r := with_window st session_name window_name fun w =>
        if !w.writer then Except.error "window writer unavailable"
        else
          match eff.write with
          | Except.error e => Except.error ("write keys failed: " ++ e)
          | Except.ok () =>
            match eff.flush with
            | Except.error e => Except.error ("flush failed: " ++ e)
            | Except.ok () => Except.ok ((), w)
      (match r.1 with
       | Except.error e => (Except.error e, r.2, false)
       | Except.ok () => (Except.ok (Json.obj [("ok", Json.bool true)]), r.2, false))
    | Except.error e, _, _ => (Except.error e, st, false)
    | _, Except.error e, _ => (Except.error e, st, false)
    | _, _, Except.error e => (Except.error e, st, false)
  else if req.method = "send_enter" then
    match get_str req.params "sessionName", get_str req.params "windowName" with
    | Except.ok session_name, Except.ok window_name =>
      let r := with_window st session_name window_name fun w =>
        if !w.writer then Except.error "window writer unavailable"
        else
          match eff.write with
          | Except.error e => Except.error ("write enter failed: " ++ e)
          | Except.ok () =>
            match eff.flush with
            | Except.error e => Except.error ("flush failed: " ++ e)
            | Except.ok () => Except.ok ((), w)
      (match r.1 with
       | Except.error e => (Except.error e, r.2, false)
       | Except.ok () => (Except.ok (Json.obj [("ok", Json.bool true)]), r.2, false))
    | Except.error e, _ => (Except.error e, st, false)
    | _, Except.error e => (Except.error e, st, false)
  else if req.method = "resize_window" then
    match get_str req.params "sessionName", get_str req.params "windowName" with
    | Except.ok session_name, Except.ok window_name =>
      let cols := get_u16 req.params "cols" 140
      let rows := get_u16 req.params "rows" 40
      let r := with_window st session_name window_name fun w =>
        Except.ok ((), { w with snapshot := { w.snapshot with cols := cols, rows := rows } })
      (match r.1 with
       | Except.error e => (Except.error e, r.2, false)
       | Except.ok () => (Except.ok (Json.obj [("ok", Json.bool true)]), r.2, false))
    | Except.error e, _ => (Except.error e, st, false)
    | _, Except.error e => (Except.error e, st, false)
  else if req.method = "list_windows" then
    let session_filter := get_opt_str req.params "sessionName"
    let windows := st.windows.filterMap fun kw =>
      match session_filter with
      | some session =>
        if kw.2.snapshot.session_name = session then some (snapshotJson kw.2.snapshot) else none
      | none => some (snapshotJson kw.2.snapshot)
    (Except.ok (Json.obj [("windows", Json.arr windows)]), st, false)
  else if req.method = "get_window_buffer" then
    match get_str req.params "sessionName", get_str req.params "windowName" with
    | Except.ok session_name, Except.ok window_name =>
      let r := with_window st session_name window_name fun w =>
        Except.ok (String.mk (bufferChars w.buffer), w)
      (match r.1 with
       | Except.error e => (Except.error e, r.2, false)
       | Except.ok buffer => (Except.ok (Json.obj [("buffer", Json.str buffer)]), r.2, false))
    | Except.error e, _ => (Except.error e, st, false)
    | _, Except.error e => (Except.error e, st, false)
  else if req.method = "get_window_frame" then
    match get_str req.params "sessionName", get_str req.params "windowName" with
    | Except.ok session_name, Except.ok window_name =>
      let requested_cols := get_opt_u16 req.params "cols"
      let requested_rows := get_opt_u16 req.params "rows"
      let r := with_window st session_name window_name fun w =>
        let cols := requested_cols.getD w.snapshot.cols
        let rows := requested_rows.getD w.snapshot.rows
        Except.ok (Frame.toJson (build_styled_frame (bufferChars w.buffer) cols rows), w)
      (match r.1 with
       | Except.error e => (Except.error e, r.2, false)
       | Except.ok frame => (Except.ok frame, r.2, false))
    | Except.error e, _ => (Except.error e, st, false)
    | _, Except.error e => (Except.error e, st, false)
  else if req.method = "stop_window" then
    match get_str req.params "sessionName", get_str req.params "windowName" with
    | Except.ok session_name, Except.ok window_name =>
      let r := with_window st session_name window_name (stop_window_body eff)
      (match r.1 with
       | Except.error e => (Except.error e, r.2, false)
       | Except.ok stopped => (Except.ok (Json.obj [("stopped", Json.bool stopped)]), r.2, false))
    | Except.error e, _ => (Except.error e, st, false)
    | _, Except.error e => (Except.error e, st, false)
  else if req.method = "dispose" then
    let st1 := { st with windows := st.windows.map fun kw => (kw.1, disposeWindow kw.2 eff.now) }
    (Except.ok (Json.obj [("ok", Json.bool true)]), st1, true)
  else
    (Except.error ("unknown method: " ++ req.method), st, false)

/-- The response-envelope construction in `run_server`. -/
structure RpcResponse where
  ok : Bool
  result : Option Json
  error : Option String

/-- How `run_server` wraps a handler outcome into the response. -/
def mkResponse (r : Except String Json) : RpcResponse :=
  match r with
  | Except.ok value => { ok := true, result := some value, error := none }
  | Except.error e => { ok := false, result := none, error := some e }

/-! ## Theorems -/

/-! ### Shared helper lemmas and example values -/

theorem insertIfAbsent_of_mem {m : List (String × α)} {key : String} {x v : α}
    (h : m.lookup key = some x) : insertIfAbsent m key v = m := by
  unfold insertIfAbsent
  rw [h]

/-- A concrete running window, used by witnesses. -/
def runningWindowEx : WindowState :=
  { snapshot :=
      { session_name := "p"
        window_name := "w"
        status := "running"
        pid := some 42
        started_at := some 5
        exited_at := none
        exit_code := none
        signal := none
        cols := 140
        rows := 40 }
    buffer := asciiBytes "[runtime] process started (pid=42)\n"
    writer := true
    master := true
    child := true }

/-- A concrete registry holding `runningWindowEx`, used by witnesses. -/
def sidecarEx : SidecarState :=
  { sessions := [("p", [])]
    windows := [(window_key "p" "w", runningWindowEx)]
    max_buffer_bytes := 512 * 1024 }

/-- A concrete effect record, used by witnesses. -/
def effEx : Eff :=
  { now := 7
    spawn := Except.ok (some 43)
    write := Except.ok ()
    flush := Except.ok ()
    kill := Except.ok () }

/-- The reader-thread append in full: with no overflow it appends; an
overflow whose slice offset `len - cap` is a char boundary drops
exactly the leading `len - cap` bytes, ending at exactly `cap`; an
overflow whose slice offset is not a char boundary panics, leaving the
appended buffer longer than the cap. -/
theorem readerChunk_cases (w : WindowState) (chunk : List Nat) (cap : Nat) :
    (¬(w.buffer ++ lossyBytes chunk).length > cap →
      readerChunk w chunk cap = ({ w with buffer := w.buffer ++ lossyBytes chunk }, true)) ∧
    ((w.buffer ++ lossyBytes chunk).length > cap →
      is_char_boundary (w.buffer ++ lossyBytes chunk)
          ((w.buffer ++ lossyBytes chunk).length - cap) = true →
      readerChunk w chunk cap
        = ({ w with buffer := List.drop ((w.buffer ++ lossyBytes chunk).length - cap) (w.buffer ++ lossyBytes chunk) }, true) ∧
      (readerChunk w chunk cap).1.buffer.length = cap) ∧
    ((w.buffer ++ lossyBytes chunk).length > cap →
      is_char_boundary (w.buffer ++ lossyBytes chunk)
          ((w.buffer ++ lossyBytes chunk).length - cap) = false →
      readerChunk w chunk cap = ({ w with buffer := w.buffer ++ lossyBytes chunk }, false) ∧
      (readerChunk w chunk cap).1.buffer.length > cap) := by
  unfold readerChunk
  refine ⟨?_, ?_, ?_⟩
  · intro hlen
    rw [if_neg hlen]
  · intro hlen hbd
    rw [if_pos hlen, if_pos hbd]
    refine ⟨rfl, ?_⟩
    show ((w.buffer ++ lossyBytes chunk).drop
      ((w.buffer ++ lossyBytes chunk).length - cap)).length = cap
    rw [List.length_drop]
    omega
  · intro hlen hbd
    rw [if_pos hlen, if_neg (by rw [hbd]; exact Bool.false_ne_true)]
    exact ⟨rfl, hlen⟩

/-- C1, code bug. The claimed invariant — every reader-thread append
ends with the buffer at most the cap (512 KiB by default), dropping
exactly the leading `len - cap` bytes on overflow — fails on the code:
`w.buffer.len()` counts bytes, and when `keep = len - cap` is not a
UTF-8 char boundary the slice `w.buffer[keep..]` panics after the
append, leaving the buffer longer than the cap (reachable with
multi-byte PTY output overflowing the cap at an offset that lands
mid-character). Concretely, with cap 3, appending the three two-byte
characters `ééé` to an empty buffer trips the panic path with the
buffer at 6 bytes; by contrast an overflow whose offset lands on a
boundary (cap 2, input `aéé`) truncates to exactly the cap. -/
theorem C1_truncation_panic :
    SidecarState.new.max_buffer_bytes = 512 * 1024 ∧
    (readerChunk (idleWindow "p" "w") [0xc3, 0xa9, 0xc3, 0xa9, 0xc3, 0xa9] 3).2 = false ∧
    (readerChunk (idleWindow "p" "w") [0xc3, 0xa9, 0xc3, 0xa9, 0xc3, 0xa9] 3).1.buffer
      = [0xc3, 0xa9, 0xc3, 0xa9, 0xc3, 0xa9] ∧
    ¬(readerChunk (idleWindow "p" "w") [0xc3, 0xa9, 0xc3, 0xa9, 0xc3, 0xa9] 3).1.buffer.length ≤ 3 ∧
    (readerChunk (idleWindow "p" "w") [0x61, 0xc3, 0xa9, 0xc3, 0xa9] 2).2 = true ∧
    (readerChunk (idleWindow "p" "w") [0x61, 0xc3, 0xa9, 0xc3, 0xa9] 2).1.buffer = [0xc3, 0xa9] := by
  refine ⟨rfl, by decide, by decide, by decide, by decide, by decide⟩

/-- C3. `start_window` on a window that holds a live child and is
`running` succeeds, leaves the whole registry (hence the window's
status, pid, timestamps, buffer and handles) unchanged, and never
reaches the PTY-open/spawn step. -/
theorem C3_start_window_idempotent (st : SidecarState)
    (session_name window_name command : String) (eff : Eff) (w : WindowState)
    (hw : st.windows.lookup (window_key session_name window_name) = some w)
    (hchild : w.child = true) (hrun : w.snapshot.status = "running") :
    start_window st session_name window_name command eff = (Except.ok (), st, false) := by
  simp only [start_window, insertIfAbsent_of_mem hw, hw, Option.getD_some]
  rw [if_pos ⟨hchild, hrun⟩]

/-- Witness for C3 on a concrete running window. -/
theorem C3_start_window_idempotent_witness :
    start_window sidecarEx "p" "w" "sleep 1" effEx = (Except.ok (), sidecarEx, false) :=
  C3_start_window_idempotent sidecarEx "p" "w" "sleep 1" effEx runningWindowEx rfl rfl rfl

/-- C7. Every transition into `exited` or `error` sets the exited-at
timestamp: the `stop_window` body, the per-window `dispose` body, the
reader thread's EOF arm (when it transitions at all), and the reader
thread's read-error arm all set `exited_at` to the current time
whenever they move the status into `exited`/`error`. -/
theorem C7_exit_sets_exited_at (w : WindowState) (eff : Eff) (now : Int) :
    (∀ stopped w', stop_window_body eff w = Except.ok (stopped, w') →
      (w'.snapshot.status = "exited" ∨ w'.snapshot.status = "error") →
      w'.snapshot.status ≠ w.snapshot.status →
      w'.snapshot.exited_at = some eff.now) ∧
    ((disposeWindow w now).snapshot.status = "exited" ∧
      (disposeWindow w now).snapshot.exited_at = some now) ∧
    ((w.snapshot.status = "running" ∨ w.snapshot.status = "starting") →
      (readerEof w now).snapshot.status = "exited" ∧
      (readerEof w now).snapshot.exited_at = some now) ∧
    (¬(w.snapshot.status = "running" ∨ w.snapshot.status = "starting") →
      readerEof w now = w) ∧
    ((readerErr w now).snapshot.status = "error" ∧
      (readerErr w now).snapshot.exited_at = some now) := by
  refine ⟨?_, ⟨rfl, rfl⟩, ?_, ?_, ⟨rfl, rfl⟩⟩
  · intro stopped w' hok _hst hchanged
    unfold stop_window_body at hok
    by_cases hc : w.child
    · rw [if_pos hc] at hok
      cases hkill : eff.kill with
      | error e => rw [hkill] at hok; cases hok
      | ok u =>
        cases u
        rw [hkill] at hok
        cases hok
        rfl
    · rw [if_neg hc] at hok
      cases hok
      exact absurd rfl hchanged
  · intro h
    unfold readerEof
    rw [if_pos h]
    exact ⟨rfl, rfl⟩
  · intro h
    unfold readerEof
    rw [if_neg h]

/-- Witness for C7: EOF on a concrete running window marks it exited at
the current time. -/
theorem C7_exit_sets_exited_at_witness :
    (readerEof runningWindowEx 9).snapshot.status = "exited" ∧
    (readerEof runningWindowEx 9).snapshot.exited_at = some 9 :=
  (C7_exit_sets_exited_at runningWindowEx effEx 9).2.2.1 (Or.inl rfl)

/-- List of the method names `handle_request` dispatches on. -/
def knownMethods : List String :=
  ["hello", "get_or_create_session", "set_session_env", "window_exists", "start_window",
   "type_keys", "send_enter", "resize_window", "list_windows", "get_window_buffer",
   "get_window_frame", "stop_window", "dispose"]

/-- C8. Every handler outcome is wrapped into an envelope carrying the
`ok` flag and exactly one of `result`/`error`; a method matched by no
handler produces the error `unknown method: <m>` (and hence the
envelope `ok:false`, no result, that error). -/
theorem C8_envelope_and_unknown_method :
    (∀ r : Except String Json,
      ((mkResponse r).ok = true ∧ ((mkResponse r).result).isSome ∧ (mkResponse r).error = none) ∨
      ((mkResponse r).ok = false ∧ (mkResponse r).result = none ∧ ((mkResponse r).error).isSome)) ∧
    (∀ (st : SidecarState) (m : String) (params : Json) (eff : Eff),
      m ∉ knownMethods →
      (handle_request st ⟨m, params⟩ eff).1 = Except.error ("unknown method: " ++ m) ∧
      mkResponse (handle_request st ⟨m, params⟩ eff).1 =
        { ok := false, result := none, error := some ("unknown method: " ++ m) }) := by
  constructor
  · intro r
    cases r with
    | ok v => exact Or.inl ⟨rfl, rfl, rfl⟩
    | error e => exact Or.inr ⟨rfl, rfl, rfl⟩
  · intro st m params eff hm
    simp only [knownMethods, List.mem_cons, List.mem_singleton, not_or] at hm
    obtain ⟨h1, h2, h3, h4, h5, h6, h7, h8, h9, h10, h11, h12, h13, -⟩ := hm
    have hfall : (handle_request st ⟨m, params⟩ eff).1 = Except.error ("unknown method: " ++ m) := by
      simp only [handle_request, if_neg h1, if_neg h2, if_neg h3, if_neg h4, if_neg h5,
        if_neg h6, if_neg h7, if_neg h8, if_neg h9, if_neg h10, if_neg h11, if_neg h12,
        if_neg h13]
    exact ⟨hfall, by rw [hfall]; rfl⟩

/-- Witness for C8 at a concrete unknown method. -/
theorem C8_envelope_and_unknown_method_witness :
    (handle_request SidecarState.new ⟨"frobnicate", Json.null⟩ effEx).1 =
      Except.error ("unknown method: " ++ "frobnicate") :=
  (C8_envelope_and_unknown_method.2 SidecarState.new "frobnicate" Json.null effEx (by decide)).1

/-- C5 counterexample: in `38;1`, the mode byte `1` after the extended
colour introducer is *not* skipped — the loop reprocesses it as a
standalone SGR code and it turns bold on, so the style is not left
unchanged. -/
theorem C5_counterexample :
    apply_sgr [some 38, some 1] CellStyle.default ≠ CellStyle.default ∧
    (apply_sgr [some 38, some 1] CellStyle.default).bold = true := by
  refine ⟨?_, rfl⟩
  intro h
  have : ({ CellStyle.default with bold := true } : CellStyle) = CellStyle.default := h
  simpa [CellStyle.default] using congrArg CellStyle.bold this

/-- The bundle of rewrite steps used to evaluate `sgrStep` at a literal
code: dispatch of the `if` chain and of `Option`/`Int` literals. -/
theorem sgrStep_extended (st : CellStyle) (code : Int) (rest : List (Option Int))
    (hcode : code = 38 ∨ code = 48) :
    ((rest.get? 0).bind id = some 2 →
      ((rest.get? 1).bind id = none ∨ (rest.get? 2).bind id = none ∨ (rest.get? 3).bind id = none) →
      sgrStep st code rest = (st, 4)) ∧
    ((rest.get? 0).bind id = some 5 →
      ((rest.get? 1).bind id).bind xterm_256_color = none →
      sgrStep st code rest = (st, 2)) ∧
    (∀ m : Option Int, (rest.get? 0).bind id = m → m ≠ some 2 → m ≠ some 5 →
      sgrStep st code rest = (st, 0)) := by
  refine ⟨?_, ?_, ?_⟩
  · intro hmode hmissing
    cases hr : (rest.get? 1).bind id with
    | none =>
      rcases hcode with h | h <;> subst h <;>
        simp only [sgrStep, Int.reduceEq, Int.reduceLE, and_true, true_and, and_false,
          false_and, true_or, or_true, false_or, or_false, reduceIte, hmode, hr]
    | some rv =>
      cases hg : (rest.get? 2).bind id with
      | none =>
        rcases hcode with h | h <;> subst h <;>
          simp only [sgrStep, Int.reduceEq, Int.reduceLE, and_true, true_and, and_false,
            false_and, true_or, or_true, false_or, or_false, reduceIte, hmode, hr, hg]
      | some gv =>
        cases hb : (rest.get? 3).bind id with
        | none =>
          rcases hcode with h | h <;> subst h <;>
            simp only [sgrStep, Int.reduceEq, Int.reduceLE, and_true, true_and, and_false,
              false_and, true_or, or_true, false_or, or_false, reduceIte, hmode, hr, hg, hb]
        | some bv =>
          rcases hmissing with h | h | h
          · rw [h] at hr; cases hr
          · rw [h] at hg; cases hg
          · rw [h] at hb; cases hb
  · intro hmode hbad
    rcases hcode with h | h <;> subst h <;>
      simp only [sgrStep, Int.reduceEq, Int.reduceLE, and_true, true_and, and_false,
        false_and, true_or, or_true, false_or, or_false, reduceIte, hmode, hbad,
        Option.some.injEq]
  · intro m hm hne2 hne5
    rw [← hm] at hne2 hne5
    rcases hcode with h | h <;> subst h <;>
      simp only [sgrStep, Int.reduceEq, Int.reduceLE, and_true, true_and, and_false,
        false_and, true_or, or_true, false_or, or_false, reduceIte, if_neg hne2, if_neg hne5]

/-- C5 (amended). For an extended-colour introducer (38 or 48): a mode
byte 2 whose three colour arguments are not all present leaves the
style unchanged and processing continues past the mode byte and the
three argument slots; a mode byte 5 whose palette index is absent or
invalid leaves the style unchanged and processing continues past the
mode byte and the index slot; but a mode byte that is neither 2 nor 5
(or an absent mode byte) is not skipped at all — the style is unchanged
by that iteration and the mode byte itself is reprocessed as the next
SGR code. -/
theorem C5_malformed_extended_colour (st : CellStyle) (code : Int) (rest : List (Option Int))
    (hcode : code = 38 ∨ code = 48) :
    ((rest.get? 0).bind id = some 2 →
      ((rest.get? 1).bind id = none ∨ (rest.get? 2).bind id = none ∨ (rest.get? 3).bind id = none) →
      sgrStep st code rest = (st, 4)) ∧
    ((rest.get? 0).bind id = some 5 →
      ((rest.get? 1).bind id).bind xterm_256_color = none →
      sgrStep st code rest = (st, 2)) ∧
    (∀ m : Option Int, (rest.get? 0).bind id = m → m ≠ some 2 → m ≠ some 5 →
      sgrStep st code rest = (st, 0)) :=
  sgrStep_extended st code rest hcode

/-- Witness for C5 (amended): `38;2;10` (missing green and blue) leaves
the style unchanged and skips four slots. -/
theorem C5_malformed_extended_colour_witness :
    sgrStep CellStyle.default 38 [some 2, some 10] = (CellStyle.default, 4) :=
  (C5_malformed_extended_colour CellStyle.default 38 [some 2, some 10] (Or.inl rfl)).1
    (by decide) (Or.inr (Or.inl (by decide)))

/-- Remove every binding of `key` from an object (other values
unchanged): the reference point for "treated as if absent". -/
def removeKey (j : Json) (key : String) : Json :=
  match j with
  | Json.obj fields => Json.obj (fields.filter fun kv => kv.1 ≠ key)
  | other => other

theorem lookup_cons {beta : Type} (a k : String) (b : beta) (rest : List (String × beta)) :
    List.lookup k ((a, b) :: rest) = if k == a then some b else List.lookup k rest := by
  cases h : k == a <;> simp [List.lookup, h]

theorem lookup_filter_ne {fields : List (String × Json)} {key k : String} (h : k ≠ key) :
    (fields.filter fun kv => kv.1 ≠ key).lookup k = fields.lookup k := by
  induction fields with
  | nil => rfl
  | cons kv rest ih =>
    obtain ⟨a, b⟩ := kv
    by_cases hk : a = key
    · have hdec : (decide ((a, b).1 ≠ key)) = false := by simp [hk]
      have hak : (k == a) = false := by
        simp only [beq_eq_false_iff_ne]
        rw [hk]
        exact h
      rw [List.filter_cons, hdec, lookup_cons, hak]
      simp only [Bool.false_eq_true, if_false]
      exact ih
    · have hdec : (decide ((a, b).1 ≠ key)) = true := by simp [hk]
      rw [List.filter_cons, hdec, if_pos rfl, lookup_cons, lookup_cons]
      cases hak : k == a
      · simp only [Bool.false_eq_true, if_false]
        exact ih
      · simp

theorem lookup_filter_self {fields : List (String × Json)} {key : String} :
    (fields.filter fun kv => kv.1 ≠ key).lookup key = none := by
  induction fields with
  | nil => rfl
  | cons kv rest ih =>
    obtain ⟨a, b⟩ := kv
    by_cases hk : a = key
    · have hdec : (decide ((a, b).1 ≠ key)) = false := by simp [hk]
      rw [List.filter_cons, hdec]
      simp only [Bool.false_eq_true, if_false]
      exact ih
    · have hdec : (decide ((a, b).1 ≠ key)) = true := by simp [hk]
      have hak : (key == a) = false := by
        simp only [beq_eq_false_iff_ne]
        exact fun hkk => hk hkk.symm
      rw [List.filter_cons, hdec, if_pos rfl, lookup_cons, hak]
      simp only [Bool.false_eq_true, if_false]
      exact ih

theorem jsonGet_removeKey_ne (params : Json) (key k : String) (h : k ≠ key) :
    jsonGet (removeKey params key) k = jsonGet params k := by
  cases params with
  | obj fields => exact lookup_filter_ne h
  | null => rfl
  | bool b => rfl
  | num n => rfl
  | str s => rfl
  | arr xs => rfl

theorem jsonGet_removeKey_self (params : Json) (key : String) :
    jsonGet (removeKey params key) key = none := by
  cases params with
  | obj fields => exact lookup_filter_self
  | null => rfl
  | bool b => rfl
  | num n => rfl
  | str s => rfl
  | arr xs => rfl

theorem get_str_removeKey {params : Json} {key k : String} (h : k ≠ key) :
    get_str (removeKey params key) k = get_str params k := by
  unfold get_str
  rw [jsonGet_removeKey_ne params key k h]

theorem get_opt_u16_removeKey_ne {params : Json} {key k : String} (h : k ≠ key) :
    get_opt_u16 (removeKey params key) k = get_opt_u16 params k := by
  unfold get_opt_u16
  rw [jsonGet_removeKey_ne params key k h]

theorem get_opt_u16_removeKey_self (params : Json) (key : String) :
    get_opt_u16 (removeKey params key) key = none := by
  unfold get_opt_u16
  rw [jsonGet_removeKey_self]
  rfl

theorem get_opt_u16_invalid {params : Json} {key : String} {v : Json}
    (hv : jsonGet params key = some v) (hbad : jsonAsU64 v = none) :
    get_opt_u16 params key = none := by
  unfold get_opt_u16
  rw [hv]
  simp [hbad]

/-- C10. A `cols`/`rows` parameter that is present but not a
non-negative integer JSON number is treated exactly as if it were
absent: the optional-dimension getter yields `none`, so `resize_window`
falls back to the defaults 140/40 and `get_window_frame` to the
snapshot dimensions — the whole request behaves identically to the same
request with the parameter removed, and no "missing or invalid" error
is produced; only values parseable as `u64` are clamped into
`[10, 400]`. -/
theorem C10_invalid_dims_ignored :
    (∀ (params : Json) (key : String) (v : Json),
      jsonGet params key = some v → jsonAsU64 v = none →
      get_opt_u16 params key = none ∧
      get_u16 params key 140 = 140 ∧ get_u16 params key 40 = 40) ∧
    (∀ (params : Json) (key : String) (n : Nat),
      (jsonGet params key).bind jsonAsU64 = some n →
      get_opt_u16 params key = some (natClamp n 10 400)) ∧
    (∀ (st : SidecarState) (eff : Eff) (params : Json) (key : String) (v : Json),
      (key = "cols" ∨ key = "rows") →
      jsonGet params key = some v → jsonAsU64 v = none →
      handle_request st ⟨"resize_window", params⟩ eff =
        handle_request st ⟨"resize_window", removeKey params key⟩ eff ∧
      handle_request st ⟨"get_window_frame", params⟩ eff =
        handle_request st ⟨"get_window_frame", removeKey params key⟩ eff) := by
  have part1 : ∀ (params : Json) (key : String) (v : Json),
      jsonGet params key = some v → jsonAsU64 v = none →
      get_opt_u16 params key = none ∧
      get_u16 params key 140 = 140 ∧ get_u16 params key 40 = 40 := by
    intro params key v hv hbad
    have h := get_opt_u16_invalid hv hbad
    exact ⟨h, by unfold get_u16; rw [h]; rfl, by unfold get_u16; rw [h]; rfl⟩
  refine ⟨part1, ?_, ?_⟩
  · intro params key n h
    unfold get_opt_u16
    rw [h]
  · intro st eff params key v hkey hv hbad
    have hnone := get_opt_u16_invalid hv hbad
    have hnone2 := get_opt_u16_removeKey_self params key
    rcases hkey with hk | hk <;> subst hk
    · have e1 : get_str (removeKey params "cols") "sessionName" = get_str params "sessionName" :=
        get_str_removeKey (by decide)
      have e2 : get_str (removeKey params "cols") "windowName" = get_str params "windowName" :=
        get_str_removeKey (by decide)
      have e3 : get_opt_u16 (removeKey params "cols") "rows" = get_opt_u16 params "rows" :=
        get_opt_u16_removeKey_ne (by decide)
      constructor
      · simp only [handle_request, String.reduceEq, reduceIte, get_u16, e1, e2, e3, hnone, hnone2]
      · simp only [handle_request, String.reduceEq, reduceIte, e1, e2, e3, hnone, hnone2]
    · have e1 : get_str (removeKey params "rows") "sessionName" = get_str params "sessionName" :=
        get_str_removeKey (by decide)
      have e2 : get_str (removeKey params "rows") "windowName" = get_str params "windowName" :=
        get_str_removeKey (by decide)
      have e3 : get_opt_u16 (removeKey params "rows") "cols" = get_opt_u16 params "cols" :=
        get_opt_u16_removeKey_ne (by decide)
      constructor
      · simp only [handle_request, String.reduceEq, reduceIte, get_u16, e1, e2, e3, hnone, hnone2]
      · simp only [handle_request, String.reduceEq, reduceIte, e1, e2, e3, hnone, hnone2]

/-- Concrete request parameters with a string-valued `cols`, for the
C10 witness. -/
def paramsEx : Json :=
  Json.obj [("sessionName", Json.str "p"), ("windowName", Json.str "w"), ("cols", Json.str "wide")]

/-- Witness for C10 at a concrete request with `cols: "wide"`. -/
theorem C10_invalid_dims_ignored_witness :
    get_opt_u16 paramsEx "cols" = none ∧
    handle_request sidecarEx ⟨"resize_window", paramsEx⟩ effEx =
      handle_request sidecarEx ⟨"resize_window", removeKey paramsEx "cols"⟩ effEx :=
  ⟨(C10_invalid_dims_ignored.1 paramsEx "cols" (Json.str "wide") rfl rfl).1,
   (C10_invalid_dims_ignored.2.2 sidecarEx effEx paramsEx "cols" (Json.str "wide")
     (Or.inl rfl) rfl rfl).1⟩

/-! ### Well-formedness of the VT state (claims C2 and C9)

Every grid access the source makes is guarded by these bounds: the
cursor stays strictly inside the grid, the grid is exactly
`rows × cols`, and the scroll region is an ordered pair of valid rows;
the saved primary screen (alternate-screen mode) satisfies the same
bounds so restoring it re-establishes them. -/

def GridWF (g : List (List Cell)) (rows cols : Nat) : Prop :=
  g.length = rows ∧ ∀ row ∈ g, row.length = cols

def SavedWF (rows cols : Nat) (sv : SavedScreen) : Prop :=
  GridWF sv.lines rows cols ∧ sv.cursor_row < rows ∧ sv.cursor_col < cols ∧
  sv.saved_row < rows ∧ sv.saved_col < cols ∧
  sv.scroll_top ≤ sv.scroll_bottom ∧ sv.scroll_bottom < rows

def VtWF (s : VtLite) : Prop :=
  1 ≤ s.rows ∧ 1 ≤ s.cols ∧
  GridWF s.lines s.rows s.cols ∧
  s.cursor_row < s.rows ∧ s.cursor_col < s.cols ∧
  s.saved_row < s.rows ∧ s.saved_col < s.cols ∧
  s.scroll_top ≤ s.scroll_bottom ∧ s.scroll_bottom < s.rows ∧
  ∀ sv ∈ s.saved_primary.toList, SavedWF s.rows s.cols sv

instance (g : List (List Cell)) (rows cols : Nat) : Decidable (GridWF g rows cols) :=
  inferInstanceAs (Decidable (_ ∧ _))

instance (rows cols : Nat) (sv : SavedScreen) : Decidable (SavedWF rows cols sv) :=
  inferInstanceAs (Decidable (_ ∧ _))

instance (s : VtLite) : Decidable (VtWF s) :=
  inferInstanceAs (Decidable (_ ∧ _))

theorem gridWF_replicate (rows cols : Nat) :
    GridWF (List.replicate rows (make_row cols)) rows cols := by
  constructor
  · exact List.length_replicate rows _
  · intro row hrow
    rw [List.eq_of_mem_replicate hrow]
    exact List.length_replicate cols _

theorem gridWF_set {g : List (List Cell)} {rows cols : Nat} (hg : GridWF g rows cols)
    (i : Nat) {r : List Cell} (hr : r.length = cols) : GridWF (g.set i r) rows cols := by
  obtain ⟨hlen, hrows⟩ := hg
  constructor
  · rw [List.length_set]
    exact hlen
  · intro row hrow
    rcases List.mem_or_eq_of_mem_set hrow with h | h
    · exact hrows row h
    · rw [h]; exact hr

theorem gridWF_listModify {g : List (List Cell)} {rows cols : Nat} (hg : GridWF g rows cols)
    (i : Nat) {f : List Cell → List Cell}
    (hf : ∀ row, row.length = cols → (f row).length = cols) :
    GridWF (listModify g i f) rows cols := by
  unfold listModify
  cases hgi : g.get? i with
  | none => exact hg
  | some x =>
    exact gridWF_set hg i (hf x (hg.2 x (List.get?_mem hgi)))

theorem length_mapWithIndex (f : Nat → α → α) (i : Nat) (l : List α) :
    (mapWithIndex f i l).length = l.length := by
  induction l generalizing i with
  | nil => rfl
  | cons x xs ih => simp [mapWithIndex, ih]

theorem mem_mapWithIndex {f : Nat → α → α} {i : Nat} {l : List α} {a : α}
    (h : a ∈ mapWithIndex f i l) : ∃ j x, x ∈ l ∧ a = f j x := by
  induction l generalizing i with
  | nil => cases h
  | cons x xs ih =>
    rcases List.mem_cons.mp h with h | h
    · exact ⟨i, x, List.mem_cons_self x xs, h⟩
    · obtain ⟨j, y, hy, ha⟩ := ih h
      exact ⟨j, y, List.mem_cons_of_mem x hy, ha⟩

theorem gridWF_mapWithIndex {g : List (List Cell)} {rows cols : Nat} (hg : GridWF g rows cols)
    {f : Nat → List Cell → List Cell} (i : Nat)
    (hf : ∀ j row, row.length = cols → (f j row).length = cols) :
    GridWF (mapWithIndex f i g) rows cols := by
  constructor
  · rw [length_mapWithIndex]; exact hg.1
  · intro row hrow
    obtain ⟨j, x, hx, hr⟩ := mem_mapWithIndex hrow
    rw [hr]
    exact hf j x (hg.2 x hx)

theorem length_rowMapWithIndex (f : Nat → Cell → Cell) (i : Nat) (row : List Cell) :
    (mapWithIndex f i row).length = row.length :=
  length_mapWithIndex f i row

theorem gridWF_scrollStep {g : List (List Cell)} {rows cols : Nat} (hg : GridWF g rows cols)
    {a b : Nat} (hab : a < g.length) (hbb : b ≤ g.length - 1) :
    GridWF (vecInsert (vecRemove g a) b (make_row cols)) rows cols := by
  obtain ⟨hlen, hrows⟩ := hg
  have hrem : (vecRemove g a).length = g.length - 1 := by
    unfold vecRemove
    rw [List.length_append, List.length_take, List.length_drop]
    omega
  constructor
  · unfold vecInsert
    rw [List.length_append, List.length_take, List.length_cons, List.length_drop, hrem]
    omega
  · intro row hrow
    unfold vecInsert at hrow
    rcases List.mem_append.mp hrow with h | h
    · have : row ∈ vecRemove g a := List.mem_of_mem_take h
      unfold vecRemove at this
      rcases List.mem_append.mp this with h2 | h2
      · exact hrows row (List.mem_of_mem_take h2)
      · exact hrows row (List.mem_of_mem_drop h2)
    · rcases List.mem_cons.mp h with h | h
      · rw [h]; exact List.length_replicate cols _
      · have : row ∈ vecRemove g a := List.mem_of_mem_drop h
        unfold vecRemove at this
        rcases List.mem_append.mp this with h2 | h2
        · exact hrows row (List.mem_of_mem_take h2)
        · exact hrows row (List.mem_of_mem_drop h2)

theorem gridWF_repeat_scrollStep {rows cols a b : Nat} (ha : a < rows) (hb : b ≤ rows - 1) :
    ∀ (n : Nat) (g : List (List Cell)), GridWF g rows cols →
      GridWF (Nat.repeat (fun x => vecInsert (vecRemove x a) b (make_row cols)) n g) rows cols := by
  intro n
  induction n with
  | zero => intro g hg; exact hg
  | succ m ih =>
    intro g hg
    exact gridWF_scrollStep (ih g hg) (by rw [(ih g hg).1]; exact ha)
      (by rw [(ih g hg).1]; exact hb)

theorem length_listModify (l : List α) (i : Nat) (f : α → α) :
    (listModify l i f).length = l.length := by
  unfold listModify
  cases l.get? i with
  | none => rfl
  | some x => exact List.length_set l i (f x)

/-! Column/row counts are never written by any VT operation; the
`cols_*` / `rows_*` lemmas record this for each operation, pushing the
projection through the branches with `apply_ite`. -/

theorem cols_scroll_region_up (s : VtLite) (top bottom count : Nat) :
    (s.scroll_region_up top bottom count).cols = s.cols := by
  unfold VtLite.scroll_region_up
  split <;> rfl

theorem rows_scroll_region_up (s : VtLite) (top bottom count : Nat) :
    (s.scroll_region_up top bottom count).rows = s.rows := by
  unfold VtLite.scroll_region_up
  split <;> rfl

theorem cols_scroll_region_down (s : VtLite) (top bottom count : Nat) :
    (s.scroll_region_down top bottom count).cols = s.cols := by
  unfold VtLite.scroll_region_down
  split <;> rfl

theorem rows_scroll_region_down (s : VtLite) (top bottom count : Nat) :
    (s.scroll_region_down top bottom count).rows = s.rows := by
  unfold VtLite.scroll_region_down
  split <;> rfl

theorem cols_line_feed (s : VtLite) : s.line_feed.cols = s.cols := by
  simp only [VtLite.line_feed, apply_ite (fun t : VtLite => t.cols), cols_scroll_region_up,
    ite_self]

theorem rows_line_feed (s : VtLite) : s.line_feed.rows = s.rows := by
  simp only [VtLite.line_feed, apply_ite (fun t : VtLite => t.rows), rows_scroll_region_up,
    ite_self]

theorem cols_reverse_index (s : VtLite) : s.reverse_index.cols = s.cols := by
  simp only [VtLite.reverse_index, apply_ite (fun t : VtLite => t.cols), cols_scroll_region_down,
    ite_self]

theorem rows_reverse_index (s : VtLite) : s.reverse_index.rows = s.rows := by
  simp only [VtLite.reverse_index, apply_ite (fun t : VtLite => t.rows), rows_scroll_region_down,
    ite_self]

theorem cols_erase_line (s : VtLite) (mode : Int) : (s.erase_line mode).cols = s.cols := by
  simp only [VtLite.erase_line, apply_ite (fun t : VtLite => t.cols), ite_self]

theorem rows_erase_line (s : VtLite) (mode : Int) : (s.erase_line mode).rows = s.rows := by
  simp only [VtLite.erase_line, apply_ite (fun t : VtLite => t.rows), ite_self]

theorem cols_erase_display (s : VtLite) (mode : Int) : (s.erase_display mode).cols = s.cols := by
  simp only [VtLite.erase_display, apply_ite (fun t : VtLite => t.cols), cols_erase_line,
    ite_self]

theorem rows_erase_display (s : VtLite) (mode : Int) : (s.erase_display mode).rows = s.rows := by
  simp only [VtLite.erase_display, apply_ite (fun t : VtLite => t.rows), rows_erase_line,
    ite_self]

theorem cols_wrapStep (s : VtLite) : s.wrapStep.cols = s.cols := by
  simp only [VtLite.wrapStep, apply_ite (fun t : VtLite => t.cols), cols_line_feed, ite_self]

theorem rows_wrapStep (s : VtLite) : s.wrapStep.rows = s.rows := by
  simp only [VtLite.wrapStep, apply_ite (fun t : VtLite => t.rows), rows_line_feed, ite_self]

theorem cols_overflowStep (s : VtLite) : s.overflowStep.cols = s.cols := by
  simp only [VtLite.overflowStep, apply_ite (fun t : VtLite => t.cols), cols_line_feed, ite_self]

theorem rows_overflowStep (s : VtLite) : s.overflowStep.rows = s.rows := by
  simp only [VtLite.overflowStep, apply_ite (fun t : VtLite => t.rows), rows_line_feed, ite_self]

theorem cols_putCell (s : VtLite) (ch : Char) : (s.putCell ch).cols = s.cols := rfl

theorem rows_putCell (s : VtLite) (ch : Char) : (s.putCell ch).rows = s.rows := rfl

theorem cols_advanceStep (s : VtLite) : s.advanceStep.cols = s.cols := by
  simp only [VtLite.advanceStep, apply_ite (fun t : VtLite => t.cols), ite_self]

theorem rows_advanceStep (s : VtLite) : s.advanceStep.rows = s.rows := by
  simp only [VtLite.advanceStep, apply_ite (fun t : VtLite => t.rows), ite_self]

theorem cols_write_char (s : VtLite) (ch : Char) : (s.write_char ch).cols = s.cols := by
  simp only [VtLite.write_char, apply_ite (fun t : VtLite => t.cols), cols_advanceStep,
    cols_putCell, cols_overflowStep, cols_wrapStep, ite_self]

theorem rows_write_char (s : VtLite) (ch : Char) : (s.write_char ch).rows = s.rows := by
  simp only [VtLite.write_char, apply_ite (fun t : VtLite => t.rows), rows_advanceStep,
    rows_putCell, rows_overflowStep, rows_wrapStep, ite_self]

theorem cols_tabWrite (s : VtLite) : s.tabWrite.cols = s.cols := by
  unfold VtLite.tabWrite
  dsimp only
  generalize 8 - s.cursor_col % 8 = n
  induction n with
  | zero => rfl
  | succ m ih =>
    exact (cols_write_char (Nat.repeat (fun st => st.write_char ' ') m s) ' ').trans ih

theorem rows_tabWrite (s : VtLite) : s.tabWrite.rows = s.rows := by
  unfold VtLite.tabWrite
  dsimp only
  generalize 8 - s.cursor_col % 8 = n
  induction n with
  | zero => rfl
  | succ m ih =>
    exact (rows_write_char (Nat.repeat (fun st => st.write_char ' ') m s) ' ').trans ih

theorem cols_enter_alt_screen (s : VtLite) : s.enter_alt_screen.cols = s.cols := by
  unfold VtLite.enter_alt_screen
  split <;> rfl

theorem rows_enter_alt_screen (s : VtLite) : s.enter_alt_screen.rows = s.rows := by
  unfold VtLite.enter_alt_screen
  split <;> rfl

theorem cols_leave_alt_screen (s : VtLite) : s.leave_alt_screen.cols = s.cols := by
  unfold VtLite.leave_alt_screen
  split <;> rfl

theorem rows_leave_alt_screen (s : VtLite) : s.leave_alt_screen.rows = s.rows := by
  unfold VtLite.leave_alt_screen
  split <;> rfl

theorem cols_privateMode (set : Bool) (s : VtLite) (p : Option Int) :
    (VtLite.privateMode set s p).cols = s.cols := by
  simp only [VtLite.privateMode, apply_ite (fun t : VtLite => t.cols), cols_enter_alt_screen,
    cols_leave_alt_screen, ite_self]

theorem rows_privateMode (set : Bool) (s : VtLite) (p : Option Int) :
    (VtLite.privateMode set s p).rows = s.rows := by
  simp only [VtLite.privateMode, apply_ite (fun t : VtLite => t.rows), rows_enter_alt_screen,
    rows_leave_alt_screen, ite_self]

theorem cols_privateMode_foldl (set : Bool) (params : List (Option Int)) (s : VtLite) :
    (params.foldl (VtLite.privateMode set) s).cols = s.cols := by
  induction params generalizing s with
  | nil => rfl
  | cons p ps ih => exact (ih (VtLite.privateMode set s p)).trans (cols_privateMode set s p)

theorem rows_privateMode_foldl (set : Bool) (params : List (Option Int)) (s : VtLite) :
    (params.foldl (VtLite.privateMode set) s).rows = s.rows := by
  induction params generalizing s with
  | nil => rfl
  | cons p ps ih => exact (ih (VtLite.privateMode set s p)).trans (rows_privateMode set s p)

theorem cols_csiDispatch (s : VtLite) (priv : Bool) (params : List (Option Int)) (final_char : Char) :
    (s.csiDispatch priv params final_char).cols = s.cols := by
  simp only [VtLite.csiDispatch, apply_ite (fun t : VtLite => t.cols), cols_erase_display,
    cols_erase_line, cols_privateMode_foldl, ite_self]

theorem rows_csiDispatch (s : VtLite) (priv : Bool) (params : List (Option Int)) (final_char : Char) :
    (s.csiDispatch priv params final_char).rows = s.rows := by
  simp only [VtLite.csiDispatch, apply_ite (fun t : VtLite => t.rows), rows_erase_display,
    rows_erase_line, rows_privateMode_foldl, ite_self]

theorem cols_handle_csi (s : VtLite) (raw : List Char) (final_char : Char) :
    (s.handle_csi raw final_char).cols = s.cols :=
  cols_csiDispatch s _ _ final_char

theorem rows_handle_csi (s : VtLite) (raw : List Char) (final_char : Char) :
    (s.handle_csi raw final_char).rows = s.rows :=
  rows_csiDispatch s _ _ final_char

theorem cols_vtStep (s : VtLite) (cs : List Char) : ((vtStep s cs).1).cols = s.cols := by
  unfold vtStep
  split
  · rfl
  · split
    · split
      · rfl
      · split
        · split
          · rfl
          · exact cols_handle_csi s _ _
        · split
          · split <;> rfl
          · simp only [apply_ite (fun t : VtLite × List Char => t.1.cols), cols_line_feed,
              cols_reverse_index, VtLite.reset, ite_self]
    · simp only [apply_ite (fun t : VtLite × List Char => t.1.cols), cols_line_feed,
        cols_tabWrite, cols_write_char, ite_self]

theorem rows_vtStep (s : VtLite) (cs : List Char) : ((vtStep s cs).1).rows = s.rows := by
  unfold vtStep
  split
  · rfl
  · split
    · split
      · rfl
      · split
        · split
          · rfl
          · exact rows_handle_csi s _ _
        · split
          · split <;> rfl
          · simp only [apply_ite (fun t : VtLite × List Char => t.1.rows), rows_line_feed,
              rows_reverse_index, VtLite.reset, ite_self]
    · simp only [apply_ite (fun t : VtLite × List Char => t.1.rows), rows_line_feed,
        rows_tabWrite, rows_write_char, ite_self]

/-! WF preservation, one lemma per operation. -/

theorem wf_new (cols rows : Nat) (hr : 1 ≤ rows) (hc : 1 ≤ cols) :
    VtWF (VtLite.new cols rows) := by
  refine ⟨hr, hc, gridWF_replicate rows cols, hr, hc, hr, hc, ?_, ?_, ?_⟩
  · exact Nat.zero_le _
  · show rows - 1 < rows
    omega
  · intro sv hsv
    cases hsv

theorem wf_scroll_region_up {s : VtLite} (hs : VtWF s) (top bottom count : Nat) :
    VtWF (s.scroll_region_up top bottom count) := by
  unfold VtLite.scroll_region_up
  split
  case isTrue => exact hs
  case isFalse h =>
    push_neg at h
    obtain ⟨h1, h2, h3, h4, h5, h6, h7, h8, h9, h10⟩ := hs
    refine ⟨h1, h2, ?_, h4, h5, h6, h7, h8, h9, h10⟩
    have ha : top < s.rows := by (try dsimp only); omega
    have hb : bottom ≤ s.rows - 1 := by (try dsimp only); omega
    exact gridWF_repeat_scrollStep ha hb _ s.lines h3

theorem gridWF_repeat_scrollStepDown {rows cols a b : Nat} (ha : a < rows) (hb : b ≤ rows - 1)
    (_hab : b < a) :
    ∀ (n : Nat) (g : List (List Cell)), GridWF g rows cols →
      GridWF (Nat.repeat (fun x => vecInsert (vecRemove x a) b (make_row cols)) n g) rows cols := by
  intro n
  induction n with
  | zero => intro g hg; exact hg
  | succ m ih =>
    intro g hg
    exact gridWF_scrollStep (ih g hg) (by rw [(ih g hg).1]; exact ha)
      (by rw [(ih g hg).1]; exact hb)

theorem wf_scroll_region_down {s : VtLite} (hs : VtWF s) (top bottom count : Nat) :
    VtWF (s.scroll_region_down top bottom count) := by
  unfold VtLite.scroll_region_down
  split
  case isTrue => exact hs
  case isFalse h =>
    push_neg at h
    obtain ⟨h1, h2, h3, h4, h5, h6, h7, h8, h9, h10⟩ := hs
    refine ⟨h1, h2, ?_, h4, h5, h6, h7, h8, h9, h10⟩
    have ha : bottom < s.rows := by (try dsimp only); omega
    have hb : top ≤ s.rows - 1 := by (try dsimp only); omega
    exact gridWF_repeat_scrollStepDown ha hb (by (try dsimp only); omega) _ s.lines h3

theorem wf_line_feed {s : VtLite} (hs : VtWF s) : VtWF s.line_feed := by
  unfold VtLite.line_feed
  split
  · split
    · exact wf_scroll_region_up hs _ _ _
    · obtain ⟨h1, h2, h3, h4, h5, h6, h7, h8, h9, h10⟩ := hs
      exact ⟨h1, h2, h3, by (try dsimp only); omega, h5, h6, h7, h8, h9, h10⟩
  · obtain ⟨h1, h2, h3, h4, h5, h6, h7, h8, h9, h10⟩ := hs
    exact ⟨h1, h2, h3, by (try dsimp only); omega, h5, h6, h7, h8, h9, h10⟩

theorem wf_reverse_index {s : VtLite} (hs : VtWF s) : VtWF s.reverse_index := by
  unfold VtLite.reverse_index
  split
  · split
    · exact wf_scroll_region_down hs _ _ _
    · obtain ⟨h1, h2, h3, h4, h5, h6, h7, h8, h9, h10⟩ := hs
      exact ⟨h1, h2, h3, by (try dsimp only); omega, h5, h6, h7, h8, h9, h10⟩
  · obtain ⟨h1, h2, h3, h4, h5, h6, h7, h8, h9, h10⟩ := hs
    exact ⟨h1, h2, h3, by (try dsimp only); omega, h5, h6, h7, h8, h9, h10⟩

theorem wf_erase_line {s : VtLite} (hs : VtWF s) (mode : Int) : VtWF (s.erase_line mode) := by
  unfold VtLite.erase_line
  obtain ⟨h1, h2, h3, h4, h5, h6, h7, h8, h9, h10⟩ := hs
  split
  · refine ⟨h1, h2, ?_, h4, h5, h6, h7, h8, h9, h10⟩
    exact gridWF_listModify h3 _ (fun row hlen => (length_mapWithIndex _ _ _).trans hlen)
  · split
    · refine ⟨h1, h2, ?_, h4, h5, h6, h7, h8, h9, h10⟩
      exact gridWF_listModify h3 _ (fun row hlen => (length_mapWithIndex _ _ _).trans hlen)
    · split
      · refine ⟨h1, h2, ?_, h4, h5, h6, h7, h8, h9, h10⟩
        exact gridWF_listModify h3 _ (fun row _ => by simp [make_row])
      · exact ⟨h1, h2, h3, h4, h5, h6, h7, h8, h9, h10⟩

theorem wf_erase_display {s : VtLite} (hs : VtWF s) (mode : Int) :
    VtWF (s.erase_display mode) := by
  unfold VtLite.erase_display
  split
  · obtain ⟨h1, h2, h3, h4, h5, h6, h7, h8, h9, h10⟩ := wf_erase_line hs 0
    refine ⟨h1, h2, ?_, h4, h5, h6, h7, h8, h9, h10⟩
    exact gridWF_mapWithIndex h3 0 (fun j row hlen => by split <;> simp [make_row, hlen])
  · split
    · apply wf_erase_line _ 1
      obtain ⟨h1, h2, h3, h4, h5, h6, h7, h8, h9, h10⟩ := hs
      refine ⟨h1, h2, ?_, h4, h5, h6, h7, h8, h9, h10⟩
      exact gridWF_mapWithIndex h3 0 (fun j row hlen => by split <;> simp [make_row, hlen])
    · split
      · obtain ⟨h1, h2, h3, h4, h5, h6, h7, h8, h9, h10⟩ := hs
        refine ⟨h1, h2, ?_, h4, h5, h6, h7, h8, h9, h10⟩
        exact gridWF_mapWithIndex h3 0 (fun j row hlen => by split <;> simp [make_row, hlen])
      · exact hs

theorem wf_wrapStep {s : VtLite} (hs : VtWF s) : VtWF s.wrapStep := by
  unfold VtLite.wrapStep
  split
  · obtain ⟨h1, h2, h3, h4, h5, h6, h7, h8, h9, h10⟩ := hs
    exact wf_line_feed ⟨h1, h2, h3, h4, by (try dsimp only); omega, h6, h7, h8, h9, h10⟩
  · exact hs

theorem wf_overflowStep {s : VtLite} (hs : VtWF s) : VtWF s.overflowStep := by
  unfold VtLite.overflowStep
  split
  · obtain ⟨h1, h2, h3, h4, h5, h6, h7, h8, h9, h10⟩ := hs
    exact wf_line_feed ⟨h1, h2, h3, h4, by (try dsimp only); omega, h6, h7, h8, h9, h10⟩
  · exact hs

theorem wf_putCell {s : VtLite} (hs : VtWF s) (ch : Char) : VtWF (s.putCell ch) := by
  obtain ⟨h1, h2, h3, h4, h5, h6, h7, h8, h9, h10⟩ := hs
  refine ⟨h1, h2, ?_, h4, h5, h6, h7, h8, h9, h10⟩
  exact gridWF_listModify h3 _ (fun row hlen => (List.length_set row _ _).trans hlen)

theorem wf_advanceStep {s : VtLite} (hs : VtWF s) : VtWF s.advanceStep := by
  unfold VtLite.advanceStep
  obtain ⟨h1, h2, h3, h4, h5, h6, h7, h8, h9, h10⟩ := hs
  split
  case isTrue => exact ⟨h1, h2, h3, h4, h5, h6, h7, h8, h9, h10⟩
  case isFalse h => exact ⟨h1, h2, h3, h4, by (try dsimp only); omega, h6, h7, h8, h9, h10⟩

theorem wf_write_char {s : VtLite} (hs : VtWF s) (ch : Char) : VtWF (s.write_char ch) := by
  unfold VtLite.write_char
  dsimp only
  split
  · exact hs
  · split
    · by_cases hc : s.cursor_row < s.rows ∧
          (if s.cursor_col > 0 then s.cursor_col - 1 else s.cursor_col) < s.cols
      · rw [if_pos hc]
        obtain ⟨h1, h2, h3, h4, h5, h6, h7, h8, h9, h10⟩ := hs
        refine ⟨h1, h2, ?_, h4, h5, h6, h7, h8, h9, h10⟩
        exact gridWF_listModify h3 _ (fun row hlen => (length_listModify _ _ _).trans hlen)
      · rw [if_neg hc]
        exact hs
    · exact wf_advanceStep (wf_putCell (wf_overflowStep (wf_wrapStep hs)) ch)

theorem wf_tabWrite {s : VtLite} (hs : VtWF s) : VtWF s.tabWrite := by
  unfold VtLite.tabWrite
  dsimp only
  generalize 8 - s.cursor_col % 8 = n
  induction n with
  | zero => exact hs
  | succ m ih => exact wf_write_char ih ' '

theorem wf_enter_alt_screen {s : VtLite} (hs : VtWF s) : VtWF s.enter_alt_screen := by
  unfold VtLite.enter_alt_screen
  split
  · exact hs
  · obtain ⟨h1, h2, h3, h4, h5, h6, h7, h8, h9, h10⟩ := hs
    refine ⟨h1, h2, gridWF_replicate _ _, h1, h2, h1, h2, Nat.zero_le _, by (try dsimp only); omega, ?_⟩
    intro sv hsv
    rcases List.mem_singleton.mp hsv with rfl
    exact ⟨h3, h4, h5, h6, h7, h8, h9⟩

theorem wf_leave_alt_screen {s : VtLite} (hs : VtWF s) : VtWF s.leave_alt_screen := by
  unfold VtLite.leave_alt_screen
  obtain ⟨h1, h2, h3, h4, h5, h6, h7, h8, h9, h10⟩ := hs
  split
  · exact ⟨h1, h2, h3, h4, h5, h6, h7, h8, h9, h10⟩
  case h_2 sv heq =>
    have hsv := h10 sv (by rw [heq]; exact List.mem_singleton.mpr rfl)
    obtain ⟨hg, hc1, hc2, hc3, hc4, hc5, hc6⟩ := hsv
    refine ⟨h1, h2, hg, by (try dsimp only); omega, by (try dsimp only); omega, by (try dsimp only); omega, by (try dsimp only); omega, ?_, by (try dsimp only); omega, ?_⟩
    · dsimp only
      omega
    · intro sv2 hsv2
      cases hsv2

theorem wf_reset {s : VtLite} (hs : VtWF s) : VtWF s.reset := by
  unfold VtLite.reset
  obtain ⟨h1, h2, h3, h4, h5, h6, h7, h8, h9, h10⟩ := hs
  refine ⟨h1, h2, gridWF_replicate _ _, h1, h2, h1, h2, Nat.zero_le _, by (try dsimp only); omega, ?_⟩
  intro sv hsv
  cases hsv

theorem wf_privateMode (set : Bool) {s : VtLite} (hs : VtWF s) (p : Option Int) :
    VtWF (VtLite.privateMode set s p) := by
  unfold VtLite.privateMode
  split
  · obtain ⟨h1, h2, h3, h4, h5, h6, h7, h8, h9, h10⟩ := hs
    exact ⟨h1, h2, h3, h4, h5, h6, h7, h8, h9, h10⟩
  · split
    · split
      · exact wf_enter_alt_screen hs
      · exact wf_leave_alt_screen hs
    · exact hs

theorem wf_privateMode_foldl (set : Bool) (params : List (Option Int)) {s : VtLite}
    (hs : VtWF s) : VtWF (params.foldl (VtLite.privateMode set) s) := by
  induction params generalizing s with
  | nil => exact hs
  | cons p ps ih => exact ih (wf_privateMode set hs p)

theorem wf_csiDispatch {s : VtLite} (hs : VtWF s) (priv : Bool) (params : List (Option Int))
    (final_char : Char) : VtWF (s.csiDispatch priv params final_char) := by
  unfold VtLite.csiDispatch
  obtain ⟨h1, h2, h3, h4, h5, h6, h7, h8, h9, h10⟩ := hs
  by_cases hA : final_char = 'A'
  · rw [if_pos hA]
    exact ⟨h1, h2, h3, by dsimp only; omega, h5, h6, h7, h8, h9, h10⟩
  rw [if_neg hA]
  by_cases hB : final_char = 'B'
  · rw [if_pos hB]
    exact ⟨h1, h2, h3, by dsimp only; omega, h5, h6, h7, h8, h9, h10⟩
  rw [if_neg hB]
  by_cases hC : final_char = 'C'
  · rw [if_pos hC]
    exact ⟨h1, h2, h3, h4, by dsimp only; omega, h6, h7, h8, h9, h10⟩
  rw [if_neg hC]
  by_cases hD : final_char = 'D'
  · rw [if_pos hD]
    exact ⟨h1, h2, h3, h4, by dsimp only; omega, h6, h7, h8, h9, h10⟩
  rw [if_neg hD]
  by_cases hG : final_char = 'G'
  · rw [if_pos hG]
    exact ⟨h1, h2, h3, h4, by dsimp only; omega, h6, h7, h8, h9, h10⟩
  rw [if_neg hG]
  by_cases hd : final_char = 'd'
  · rw [if_pos hd]
    exact ⟨h1, h2, h3, by dsimp only; omega, h5, h6, h7, h8, h9, h10⟩
  rw [if_neg hd]
  by_cases hH : final_char = 'H' ∨ final_char = 'f'
  · rw [if_pos hH]
    exact ⟨h1, h2, h3, by dsimp only; omega, by dsimp only; omega, h6, h7, h8, h9, h10⟩
  rw [if_neg hH]
  by_cases hJ : final_char = 'J'
  · rw [if_pos hJ]
    exact @wf_erase_display { s with wrap_pending := false } ⟨h1, h2, h3, h4, h5, h6, h7, h8, h9, h10⟩ _
  rw [if_neg hJ]
  by_cases hK : final_char = 'K'
  · rw [if_pos hK]
    exact @wf_erase_line { s with wrap_pending := false } ⟨h1, h2, h3, h4, h5, h6, h7, h8, h9, h10⟩ _
  rw [if_neg hK]
  by_cases hm : final_char = 'm'
  · rw [if_pos hm]
    exact ⟨h1, h2, h3, h4, h5, h6, h7, h8, h9, h10⟩
  rw [if_neg hm]
  by_cases hr : final_char = 'r'
  · rw [if_pos hr]
    dsimp only
    split
    · exact ⟨h1, h2, h3, by dsimp only; omega, by dsimp only; omega, h6, h7,
        by dsimp only; omega, by dsimp only; omega, h10⟩
    · exact ⟨h1, h2, h3, h4, h5, h6, h7, h8, h9, h10⟩
  rw [if_neg hr]
  by_cases hS : final_char = 's'
  · rw [if_pos hS]
    exact ⟨h1, h2, h3, h4, h5, h4, h5, h8, h9, h10⟩
  rw [if_neg hS]
  by_cases hu : final_char = 'u'
  · rw [if_pos hu]
    exact ⟨h1, h2, h3, by dsimp only; omega, by dsimp only; omega, h6, h7, h8, h9, h10⟩
  rw [if_neg hu]
  by_cases hhl : (final_char = 'h' ∨ final_char = 'l') ∧ priv = true
  · rw [if_pos hhl]
    exact wf_privateMode_foldl _ _ ⟨h1, h2, h3, h4, h5, h6, h7, h8, h9, h10⟩
  · rw [if_neg hhl]
    exact ⟨h1, h2, h3, h4, h5, h6, h7, h8, h9, h10⟩

theorem wf_handle_csi {s : VtLite} (hs : VtWF s) (raw : List Char) (final_char : Char) :
    VtWF (s.handle_csi raw final_char) :=
  wf_csiDispatch hs _ _ final_char

theorem wf_vtStep {s : VtLite} (hs : VtWF s) (cs : List Char) : VtWF (vtStep s cs).1 := by
  unfold vtStep
  split
  · exact hs
  · split
    · split
      · exact hs
      · split
        · split
          · exact hs
          · exact wf_handle_csi hs _ _
        · split
          · split
            · exact hs
            · exact hs
          · split
            · obtain ⟨h1, h2, h3, h4, h5, h6, h7, h8, h9, h10⟩ := hs
              exact ⟨h1, h2, h3, h4, h5, h4, h5, h8, h9, h10⟩
            · split
              · obtain ⟨h1, h2, h3, h4, h5, h6, h7, h8, h9, h10⟩ := hs
                exact ⟨h1, h2, h3, by dsimp only; omega, by dsimp only; omega, h6, h7, h8, h9, h10⟩
              · split
                · apply wf_line_feed
                  obtain ⟨h1, h2, h3, h4, h5, h6, h7, h8, h9, h10⟩ := hs
                  exact ⟨h1, h2, h3, h4, h5, h6, h7, h8, h9, h10⟩
                · split
                  · apply wf_line_feed
                    obtain ⟨h1, h2, h3, h4, h5, h6, h7, h8, h9, h10⟩ := hs
                    exact ⟨h1, h2, h3, h4, by dsimp only; omega, h6, h7, h8, h9, h10⟩
                  · split
                    · apply wf_reverse_index
                      obtain ⟨h1, h2, h3, h4, h5, h6, h7, h8, h9, h10⟩ := hs
                      exact ⟨h1, h2, h3, h4, h5, h6, h7, h8, h9, h10⟩
                    · split
                      · exact wf_reset hs
                      · exact hs
    · split
      · obtain ⟨h1, h2, h3, h4, h5, h6, h7, h8, h9, h10⟩ := hs
        exact ⟨h1, h2, h3, h4, by dsimp only; omega, h6, h7, h8, h9, h10⟩
      · split
        · apply wf_line_feed
          obtain ⟨h1, h2, h3, h4, h5, h6, h7, h8, h9, h10⟩ := hs
          exact ⟨h1, h2, h3, h4, h5, h6, h7, h8, h9, h10⟩
        · split
          · obtain ⟨h1, h2, h3, h4, h5, h6, h7, h8, h9, h10⟩ := hs
            exact ⟨h1, h2, h3, h4, by dsimp only; omega, h6, h7, h8, h9, h10⟩
          · split
            · exact wf_tabWrite hs
            · split
              · exact hs
              · exact wf_write_char hs _

theorem wf_vtRun : ∀ (fuel : Nat) {s : VtLite} (cs : List Char), VtWF s → VtWF (vtRun fuel s cs) := by
  intro fuel
  induction fuel with
  | zero =>
    intro s cs hs
    cases cs <;> exact hs
  | succ m ih =>
    intro s cs hs
    cases cs with
    | nil => exact hs
    | cons c cs2 => exact ih _ (wf_vtStep hs (c :: cs2))

theorem wf_feed {s : VtLite} (hs : VtWF s) (input : List Char) : VtWF (s.feed input) :=
  wf_vtRun _ _ hs

theorem cols_vtRun : ∀ (fuel : Nat) (s : VtLite) (cs : List Char),
    (vtRun fuel s cs).cols = s.cols ∧ (vtRun fuel s cs).rows = s.rows := by
  intro fuel
  induction fuel with
  | zero =>
    intro s cs
    cases cs <;> exact ⟨rfl, rfl⟩
  | succ m ih =>
    intro s cs
    cases cs with
    | nil => exact ⟨rfl, rfl⟩
    | cons c cs2 =>
      have h := ih (vtStep s (c :: cs2)).1 (vtStep s (c :: cs2)).2
      exact ⟨h.1.trans (cols_vtStep s (c :: cs2)), h.2.trans (rows_vtStep s (c :: cs2))⟩

theorem dims_feed (s : VtLite) (input : List Char) :
    (s.feed input).cols = s.cols ∧ (s.feed input).rows = s.rows :=
  cols_vtRun _ s input

/-- C9. `build_styled_frame` is total and every grid access stays in
bounds: the well-formedness invariant `VtWF` — cursor strictly inside
the `rows × cols` grid, grid exactly `rows` rows of `cols` cells,
ordered in-range scroll region, same bounds for the saved primary
screen — holds of the initial clamped state, is preserved by every
step of the feed loop (every escape handler, control character,
scroll, erase, and write), and therefore holds of the state reached on
any input. -/
theorem C9_feed_stays_in_bounds :
    (∀ (cols rows : Nat), VtWF (VtLite.new (natClamp cols 20 300) (natClamp rows 6 200))) ∧
    (∀ (s : VtLite) (cs : List Char), VtWF s → VtWF (vtStep s cs).1) ∧
    (∀ (s : VtLite) (input : List Char), VtWF s → VtWF (s.feed input)) ∧
    (∀ (input : List Char) (cols rows : Nat),
      VtWF ((VtLite.new (natClamp cols 20 300) (natClamp rows 6 200)).feed input)) := by
  refine ⟨?_, ?_, ?_, ?_⟩
  · intro cols rows
    exact wf_new _ _ (by unfold natClamp; omega) (by unfold natClamp; omega)
  · intro s cs hs
    exact wf_vtStep hs cs
  · intro s input hs
    exact wf_feed hs input
  · intro input cols rows
    exact wf_feed (wf_new _ _ (by unfold natClamp; omega) (by unfold natClamp; omega)) input

/-- Witness for C9: the invariant holds after feeding a concrete mixed
input into a concrete well-formed state. -/
theorem C9_feed_stays_in_bounds_witness :
    VtWF ((VtLite.new 20 6).feed ("hi\x1b[2J\x1b[5;3Hok".toList)) :=
  C9_feed_stays_in_bounds.2.2.1 (VtLite.new 20 6) ("hi\x1b[2J\x1b[5;3Hok".toList) (by decide)

/-- C2. For every input and requested dimensions, the frame reports
`cols`/`rows` equal to the clamped dimensions (`[20,300]` and
`[6,200]`), contains exactly that many lines, and its cursor position
is strictly inside those bounds. -/
theorem C2_frame_shape (input : List Char) (cols rows : Nat) :
    (build_styled_frame input cols rows).cols = natClamp cols 20 300 ∧
    (build_styled_frame input cols rows).rows = natClamp rows 6 200 ∧
    (build_styled_frame input cols rows).lines.length = natClamp rows 6 200 ∧
    (build_styled_frame input cols rows).cursorRow < natClamp rows 6 200 ∧
    (build_styled_frame input cols rows).cursorCol < natClamp cols 20 300 := by
  have hwf := wf_feed (wf_new (natClamp cols 20 300) (natClamp rows 6 200)
    (by unfold natClamp; omega) (by unfold natClamp; omega)) input
  have hdims := dims_feed (VtLite.new (natClamp cols 20 300) (natClamp rows 6 200)) input
  obtain ⟨t1, t2, ⟨hlen, hrows⟩, t4, t5, t6, t7, t8, t9, t10⟩ := hwf
  have hCr : ((VtLite.new (natClamp cols 20 300) (natClamp rows 6 200)).feed input).rows
      = natClamp rows 6 200 := hdims.2
  have hCc : ((VtLite.new (natClamp cols 20 300) (natClamp rows 6 200)).feed input).cols
      = natClamp cols 20 300 := hdims.1
  unfold build_styled_frame VtLite.into_frame
  dsimp only
  refine ⟨hCc, hCr, ?_, ?_, ?_⟩
  · rw [List.length_map, hlen]
    exact hCr
  · have h20 : (1 : Nat) ≤ natClamp rows 6 200 := by unfold natClamp; omega
    omega
  · have h20 : (1 : Nat) ≤ natClamp cols 20 300 := by unfold natClamp; omega
    omega

/-! ### The feed loop consumes input: fuel `input.length` is enough -/

theorem csiScan_le : ∀ {cs : List Char} {p : List Char} {f : Char} {r : List Char},
    csiScan cs = some (p, f, r) → r.length < cs.length := by
  intro cs
  induction cs with
  | nil => intro p f r h; cases h
  | cons c rest ih =>
    intro p f r h
    unfold csiScan at h
    split at h
    · cases h
      simp
    · cases hscan : csiScan rest with
      | none => rw [hscan] at h; cases h
      | some t =>
        obtain ⟨p2, f2, r2⟩ := t
        rw [hscan] at h
        cases h
        have := ih hscan
        simp only [List.length_cons]
        omega

theorem oscScan_le : ∀ {cs r : List Char}, oscScan cs = some r → r.length < cs.length := by
  intro cs
  induction cs with
  | nil => intro r h; cases h
  | cons c rest ih =>
    intro r h
    unfold oscScan at h
    split at h
    · cases h
      simp
    · split at h
      · cases rest with
        | nil => cases h
        | cons c2 rest2 =>
          dsimp only at h
          by_cases hb : c2 = '\\'
          · rw [if_pos hb] at h
            cases h
            simp only [List.length_cons]
            omega
          · rw [if_neg hb] at h
            have := ih h
            simp only [List.length_cons] at *
            omega
      · have := ih h
        simp only [List.length_cons] at *
        omega

theorem vtStep_consumes (s : VtLite) (c : Char) (cs : List Char) :
    ((vtStep s (c :: cs)).2).length ≤ cs.length := by
  unfold vtStep
  repeat' split
  all_goals try simp_all
  all_goals
    rename_i heq
  case h_2.isTrue.h_2.isTrue.h_2 =>
    have := csiScan_le heq
    omega
  case h_2.isTrue.h_2.isFalse.isTrue.h_2 =>
    have := oscScan_le heq
    omega

theorem vtRun_nil (fuel : Nat) (s : VtLite) : vtRun fuel s [] = s := by
  cases fuel <;> rfl

theorem vtRun_fuel : ∀ (n m : Nat) (s : VtLite) (cs : List Char),
    cs.length ≤ n → cs.length ≤ m → vtRun n s cs = vtRun m s cs := by
  intro n
  induction n with
  | zero =>
    intro m s cs hn _
    have : cs = [] := List.eq_nil_of_length_eq_zero (Nat.le_zero.mp hn)
    rw [this, vtRun_nil, vtRun_nil]
  | succ n2 ih =>
    intro m s cs hn hm
    cases cs with
    | nil => rw [vtRun_nil, vtRun_nil]
    | cons c cs2 =>
      cases m with
      | zero => simp at hm
      | succ m2 =>
        show vtRun n2 (vtStep s (c :: cs2)).1 (vtStep s (c :: cs2)).2
          = vtRun m2 (vtStep s (c :: cs2)).1 (vtStep s (c :: cs2)).2
        have hc := vtStep_consumes s c cs2
        exact ih m2 _ _ (by simp at hn; omega) (by simp at hm; omega)

theorem feed_step {s : VtLite} {cs : List Char} (h : cs ≠ []) :
    s.feed cs = ((vtStep s cs).1).feed (vtStep s cs).2 := by
  cases cs with
  | nil => exact absurd rfl h
  | cons c cs2 =>
    show vtRun (c :: cs2).length s (c :: cs2)
      = vtRun ((vtStep s (c :: cs2)).2).length (vtStep s (c :: cs2)).1 (vtStep s (c :: cs2)).2
    have hstep : vtRun (c :: cs2).length s (c :: cs2)
        = vtRun cs2.length (vtStep s (c :: cs2)).1 (vtStep s (c :: cs2)).2 := rfl
    rw [hstep]
    exact vtRun_fuel cs2.length _ _ _ (vtStep_consumes s c cs2) (le_refl _)

theorem feed_nil (s : VtLite) : s.feed [] = s := rfl

/-! ### Printable characters and the alternate screen (claims C4, C6) -/

/-- A printable character the feed loop sends to `write_char` as a
width-1 glyph: not a control byte, not DEL, and of display width 1. -/
def goodChar (c : Char) : Prop :=
  0x20 ≤ c.toNat ∧ c.toNat ≠ 0x7f ∧ char_display_width c = 1

instance (c : Char) : Decidable (goodChar c) :=
  inferInstanceAs (Decidable (_ ∧ _))

/-- `write_char` (and its parts) never touch the saved primary screen. -/
theorem saved_scroll_region_up (s : VtLite) (top bottom count : Nat) :
    (s.scroll_region_up top bottom count).saved_primary = s.saved_primary := by
  unfold VtLite.scroll_region_up
  split <;> rfl

theorem saved_scroll_region_down (s : VtLite) (top bottom count : Nat) :
    (s.scroll_region_down top bottom count).saved_primary = s.saved_primary := by
  unfold VtLite.scroll_region_down
  split <;> rfl

theorem saved_line_feed (s : VtLite) : s.line_feed.saved_primary = s.saved_primary := by
  simp only [VtLite.line_feed, apply_ite (fun t : VtLite => t.saved_primary),
    saved_scroll_region_up, ite_self]

theorem saved_wrapStep (s : VtLite) : s.wrapStep.saved_primary = s.saved_primary := by
  simp only [VtLite.wrapStep, apply_ite (fun t : VtLite => t.saved_primary),
    saved_line_feed, ite_self]

theorem saved_overflowStep (s : VtLite) : s.overflowStep.saved_primary = s.saved_primary := by
  simp only [VtLite.overflowStep, apply_ite (fun t : VtLite => t.saved_primary),
    saved_line_feed, ite_self]

theorem saved_putCell (s : VtLite) (ch : Char) : (s.putCell ch).saved_primary = s.saved_primary :=
  rfl

theorem saved_advanceStep (s : VtLite) : s.advanceStep.saved_primary = s.saved_primary := by
  simp only [VtLite.advanceStep, apply_ite (fun t : VtLite => t.saved_primary), ite_self]

theorem saved_write_char (s : VtLite) (ch : Char) :
    (s.write_char ch).saved_primary = s.saved_primary := by
  simp only [VtLite.write_char, apply_ite (fun t : VtLite => t.saved_primary),
    saved_advanceStep, saved_putCell, saved_overflowStep, saved_wrapStep, ite_self]

theorem saved_writeChars (txt : List Char) (s : VtLite) :
    (txt.foldl VtLite.write_char s).saved_primary = s.saved_primary := by
  induction txt generalizing s with
  | nil => rfl
  | cons c rest ih => exact (ih (s.write_char c)).trans (saved_write_char s c)

/-- A printable width-1 character steps the loop into `write_char`. -/
theorem vtStep_good (s : VtLite) {c : Char} (hc : goodChar c) (rest : List Char) :
    vtStep s (c :: rest) = (s.write_char c, rest) := by
  obtain ⟨hc1, hc2, hc3⟩ := hc
  have hesc : c ≠ '\x1b' := fun h => by rw [h] at hc1; simp at hc1
  have hcr : c ≠ '\r' := fun h => by rw [h] at hc1; simp at hc1
  have hlf : c ≠ '\n' := fun h => by rw [h] at hc1; simp at hc1
  have hbs : c ≠ '\x08' := fun h => by rw [h] at hc1; simp at hc1
  have htab : c ≠ '\t' := fun h => by rw [h] at hc1; simp at hc1
  have hctl : ¬(c.toNat < 0x20 ∨ c.toNat = 0x7f) := by omega
  unfold vtStep
  dsimp only
  rw [if_neg hesc, if_neg hcr, if_neg hlf, if_neg hbs, if_neg htab, if_neg hctl]

/-- Feeding a printable character then the rest. -/
theorem feed_good_cons {s : VtLite} {c : Char} (hc : goodChar c) (rest : List Char) :
    s.feed (c :: rest) = (s.write_char c).feed rest := by
  have h := @feed_step s (c :: rest) (by simp)
  rw [vtStep_good s hc rest] at h
  exact h

/-- Feeding a run of printable characters folds `write_char` over them. -/
theorem feed_writeChars {txt : List Char} (h : ∀ c ∈ txt, goodChar c) (s : VtLite)
    (rest : List Char) :
    s.feed (txt ++ rest) = (txt.foldl VtLite.write_char s).feed rest := by
  induction txt generalizing s with
  | nil => rfl
  | cons c t ih =>
    rw [List.cons_append, feed_good_cons (h c (List.mem_cons_self c t)) (t ++ rest)]
    exact ih (fun x hx => h x (List.mem_cons_of_mem c hx)) (s.write_char c)

/-- The snapshot `enter_alt_screen` takes of the current screen. -/
def snapshotOf (s : VtLite) : SavedScreen :=
  { lines := s.lines
    cursor_row := s.cursor_row
    cursor_col := s.cursor_col
    saved_row := s.saved_row
    saved_col := s.saved_col
    style := s.style
    scroll_top := s.scroll_top
    scroll_bottom := s.scroll_bottom
    cursor_visible := s.cursor_visible }

/-- The `CSI ?1049h` prefix steps the loop into `enter_alt_screen`
(plus the handler's trailing `wrap_pending` clear). -/
theorem vtStep_altOn (s : VtLite) (rest : List Char) :
    vtStep s ("\x1b[?1049h".toList ++ rest) =
      ({ s.enter_alt_screen with wrap_pending := false }, rest) := rfl

/-- The `CSI ?1049l` prefix steps the loop into `leave_alt_screen`. -/
theorem vtStep_altOff (s : VtLite) (rest : List Char) :
    vtStep s ("\x1b[?1049l".toList ++ rest) =
      ({ s.leave_alt_screen with wrap_pending := false }, rest) := rfl

theorem feed_altOn (s : VtLite) (rest : List Char) :
    s.feed ("\x1b[?1049h".toList ++ rest) =
      ({ s.enter_alt_screen with wrap_pending := false }).feed rest := by
  have h := @feed_step s ("\x1b[?1049h".toList ++ rest) (by simp)
  rw [vtStep_altOn] at h
  exact h

theorem feed_altOff (s : VtLite) (rest : List Char) :
    s.feed ("\x1b[?1049l".toList ++ rest) =
      ({ s.leave_alt_screen with wrap_pending := false }).feed rest := by
  have h := @feed_step s ("\x1b[?1049l".toList ++ rest) (by simp)
  rw [vtStep_altOff] at h
  exact h

/-- C6. Alternate screen: entering with no saved primary snapshots the
grid, cursor, saved cursor, style, scroll region and cursor visibility
and resets the grid to blanks with default state; entering again while
saved is a no-op (the first save wins); leaving with no saved primary
is a no-op; leaving with a saved primary restores every saved field
exactly; and feeding `CSI ?1049h`, any printable text, then
`CSI ?1049l` leaves the grid exactly as it was — the characters
written inside the alternate screen do not appear. -/
theorem C6_alternate_screen (s : VtLite) (hs : VtWF s) :
    (s.saved_primary = none →
      s.enter_alt_screen = { s with
        lines := List.replicate s.rows (make_row s.cols)
        cursor_row := 0
        cursor_col := 0
        saved_row := 0
        saved_col := 0
        style := CellStyle.default
        scroll_top := 0
        scroll_bottom := s.rows - 1
        wrap_pending := false
        saved_primary := some (snapshotOf s) }) ∧
    (∀ sv, s.saved_primary = some sv → s.enter_alt_screen = s) ∧
    (s.saved_primary = none → s.leave_alt_screen = s) ∧
    (∀ sv, s.saved_primary = some sv →
      s.leave_alt_screen = { s with
        lines := sv.lines
        cursor_row := sv.cursor_row
        cursor_col := sv.cursor_col
        saved_row := sv.saved_row
        saved_col := sv.saved_col
        style := sv.style
        scroll_top := sv.scroll_top
        scroll_bottom := sv.scroll_bottom
        cursor_visible := sv.cursor_visible
        wrap_pending := false
        saved_primary := none }) ∧
    (s.saved_primary = none → ∀ txt, (∀ c ∈ txt, goodChar c) →
      (s.feed ("\x1b[?1049h".toList ++ txt ++ "\x1b[?1049l".toList)).lines = s.lines) := by
  obtain ⟨t1, t2, t3, t4, t5, t6, t7, t8, t9, t10⟩ := hs
  refine ⟨?_, ?_, ?_, ?_, ?_⟩
  · intro h
    unfold VtLite.enter_alt_screen
    rw [h]
    rfl
  · intro sv h
    unfold VtLite.enter_alt_screen
    rw [h]
    rfl
  · intro h
    unfold VtLite.leave_alt_screen
    rw [h]
  · intro sv h
    have hsw := t10 sv (by rw [h]; exact List.mem_singleton.mpr rfl)
    obtain ⟨hg, c1, c2, c3, c4, c5, c6⟩ := hsw
    unfold VtLite.leave_alt_screen
    rw [h]
    dsimp only
    rw [Nat.min_eq_left (by omega), Nat.min_eq_left (by omega), Nat.min_eq_left (by omega),
      Nat.min_eq_left (by omega), Nat.min_eq_left (by omega), Nat.min_eq_left (by omega)]
  · intro hnone txt htxt
    rw [List.append_assoc]
    rw [feed_altOn s (txt ++ "\x1b[?1049l".toList)]
    rw [feed_writeChars htxt ({ s.enter_alt_screen with wrap_pending := false }) ("\x1b[?1049l".toList)]
    have hoff := feed_altOff
      (txt.foldl VtLite.write_char { s.enter_alt_screen with wrap_pending := false }) []
    rw [List.append_nil] at hoff
    rw [hoff, feed_nil]
    have hA : ({ s.enter_alt_screen with wrap_pending := false } : VtLite).saved_primary
        = some (snapshotOf s) := by
      show s.enter_alt_screen.saved_primary = some (snapshotOf s)
      unfold VtLite.enter_alt_screen
      rw [hnone]
      rfl
    have hB : (txt.foldl VtLite.write_char
        { s.enter_alt_screen with wrap_pending := false }).saved_primary
        = some (snapshotOf s) :=
      (saved_writeChars txt _).trans hA
    show (txt.foldl VtLite.write_char
      { s.enter_alt_screen with wrap_pending := false }).leave_alt_screen.lines = s.lines
    unfold VtLite.leave_alt_screen
    rw [hB]
    rfl

/-- Witness for C6: the concrete scenario of the source's unit test —
`?1049h`, the letters `alt`, `?1049l` — restores the prior (blank)
screen on a concrete state. -/
theorem C6_alternate_screen_witness :
    ((VtLite.new 20 6).feed ("\x1b[?1049h".toList ++ ['a', 'l', 't'] ++ "\x1b[?1049l".toList)).lines
      = (VtLite.new 20 6).lines :=
  (C6_alternate_screen (VtLite.new 20 6) (by decide)).2.2.2.2 rfl ['a', 'l', 't'] (by decide)

/-! ### Pure-text rendering (claim C4) -/

/-- The concatenated text of a frame line's segments. -/
def lineText (l : FrameLine) : String :=
  (l.segments.map (fun seg => seg.text)).foldl (fun a b => a ++ b) ""

/-- Split on newline characters (the claim's "input split on `\n`"). -/
def splitNl : List Char → List (List Char)
  | [] => [[]]
  | c :: rest =>
    if c = '\n' then [] :: splitNl rest
    else
      match splitNl rest with
      | [] => [[c]]
      | p :: ps => (c :: p) :: ps

/-- Right-trim of trailing spaces. -/
def trimR (l : List Char) : List Char :=
  (l.reverse.dropWhile fun c => c = ' ').reverse

/-- The cell `write_char` stores for a printable character under the
default style. -/
def cellOf (c : Char) : Cell :=
  ⟨String.singleton c, CellStyle.default⟩

/-- Successive cell stores of a run of characters into one row. -/
def placeChars (row : List Cell) (j : Nat) : List Char → List Cell
  | [] => row
  | c :: cs => placeChars (row.set j (cellOf c)) (j + 1) cs

/-- The grid after rendering a list of text lines from row `ρ` down. -/
def placeGrid (g : List (List Cell)) (ρ : Nat) : List (List Char) → List (List Cell)
  | [] => g
  | l :: ls => placeGrid (listModify g ρ fun row => placeChars row 0 l) (ρ + 1) ls

/-- The VT state while rendering pure text: default everything, cursor
at `(ρ, j)`, full-screen scroll region. -/
def lineSt (C R : Nat) (g : List (List Cell)) (ρ j : Nat) (w : Bool) : VtLite :=
  { cols := C
    rows := R
    lines := g
    cursor_row := ρ
    cursor_col := j
    saved_row := 0
    saved_col := 0
    style := CellStyle.default
    scroll_top := 0
    scroll_bottom := R - 1
    wrap_pending := w
    cursor_visible := true
    saved_primary := none }

/-- `\r\n`-joined lines (carriage return + line feed between lines). -/
def joinCRLF : List (List Char) → List Char
  | [] => []
  | [l] => l
  | l :: ls => l ++ '\r' :: '\n' :: joinCRLF ls

theorem listModify_id (l : List α) (i : Nat) : listModify l i (fun x => x) = l := by
  unfold listModify
  cases h : l.get? i with
  | none => rfl
  | some x =>
    have hi : i < l.length := List.get?_eq_some.mp h |>.1
    apply List.ext_get
    · simp
    · intro n h1 h2
      rw [List.get_set]
      split
      · subst n
        simp only [List.get?_eq_get hi] at h
        cases h
        rfl
      · rfl

theorem listModify_comp (l : List α) (i : Nat) (f1 f2 : α → α) :
    listModify (listModify l i f1) i f2 = listModify l i (fun x => f2 (f1 x)) := by
  unfold listModify
  cases h : l.get? i with
  | none => rw [h]
  | some x =>
    have h2 : (l.set i (f1 x)).get? i = some (f1 x) := by
      rw [List.get?_set_eq, h]
      rfl
    dsimp only
    rw [h2]
    dsimp only
    rw [List.set_set]

theorem listModify_get?_self (l : List α) (i : Nat) (f : α → α) :
    (listModify l i f).get? i = (l.get? i).map f := by
  unfold listModify
  cases h : l.get? i with
  | none => rw [h]; rfl
  | some x =>
    rw [List.get?_set_eq, h]
    rfl

theorem listModify_get?_ne (l : List α) (i j : Nat) (f : α → α) (h : i ≠ j) :
    (listModify l i f).get? j = l.get? j := by
  unfold listModify
  cases hg : l.get? i with
  | none => rfl
  | some x =>
    dsimp only
    exact List.get?_set_ne (f x) l h

theorem length_placeGrid (ls : List (List Char)) : ∀ (g : List (List Cell)) (ρ : Nat),
    (placeGrid g ρ ls).length = g.length := by
  induction ls with
  | nil => intro g ρ; rfl
  | cons l rest ih =>
    intro g ρ
    unfold placeGrid
    rw [ih, length_listModify]

theorem write_char_lineSt (C R : Nat) (g : List (List Cell)) (ρ j : Nat) (c : Char)
    (hc : char_display_width c = 1) (hj : j < C) (hρ : ρ < R) :
    (lineSt C R g ρ j false).write_char c
      = if C - 1 ≤ j
        then lineSt C R (listModify g ρ fun row => row.set j (cellOf c)) ρ j true
        else lineSt C R (listModify g ρ fun row => row.set j (cellOf c)) ρ (j + 1) false := by
  unfold VtLite.write_char VtLite.wrapStep VtLite.overflowStep VtLite.putCell VtLite.advanceStep
  dsimp only [lineSt]
  rw [hc]
  rw [if_neg (show ¬(R = 0 ∨ C = 0) by omega),
    if_neg (Nat.one_ne_zero),
    if_neg Bool.false_ne_true,
    if_neg (show ¬(C ≤ j) by omega)]
  by_cases hlast : C - 1 ≤ j
  · rw [if_pos hlast, if_pos hlast]
    exact rfl
  · rw [if_neg hlast, if_neg hlast]
    exact rfl

theorem writeChars_line : ∀ (l : List Char) (C R : Nat) (g : List (List Cell)) (ρ j : Nat),
    (∀ c ∈ l, goodChar c) → j + l.length ≤ C → j < C → ρ < R →
    l.foldl VtLite.write_char (lineSt C R g ρ j false)
      = lineSt C R (listModify g ρ fun row => placeChars row j l) ρ
          (min (j + l.length) (C - 1)) (decide (j + l.length = C)) := by
  intro l
  induction l with
  | nil =>
    intro C R g ρ j _ _ hj _
    rw [List.foldl_nil]
    rw [show (fun row : List Cell => placeChars row j []) = fun row : List Cell => row from rfl]
    rw [listModify_id, List.length_nil, Nat.add_zero,
      Nat.min_eq_left (by omega), decide_eq_false (by omega)]
  | cons c rest ih =>
    intro C R g ρ j hgood hlen hj hρ
    rw [List.foldl_cons]
    rw [write_char_lineSt C R g ρ j c (hgood c (List.mem_cons_self c rest)).2.2 hj hρ]
    by_cases hlast : C - 1 ≤ j
    · have hrest : rest = [] := by
        have := hlen
        rw [List.length_cons] at this
        cases rest with
        | nil => rfl
        | cons d ds => exact absurd this (by rw [List.length_cons]; omega)
      subst hrest
      rw [if_pos hlast, List.foldl_nil]
      show lineSt C R (listModify g ρ fun row => row.set j (cellOf c)) ρ j true
        = lineSt C R (listModify g ρ fun row => row.set j (cellOf c)) ρ
            (min (j + 1) (C - 1)) (decide (j + 1 = C))
      rw [show min (j + 1) (C - 1) = j from by omega,
        decide_eq_true (show j + 1 = C from by omega)]
    · rw [if_neg hlast]
      rw [ih C R (listModify g ρ fun row => row.set j (cellOf c)) ρ (j + 1)
        (fun d hd => hgood d (List.mem_cons_of_mem c hd))
        (by rw [List.length_cons] at hlen; omega)
        (by omega) hρ]
      rw [listModify_comp]
      rw [List.length_cons]
      have harith1 : j + 1 + rest.length = j + (rest.length + 1) := by omega
      rw [harith1]
      rfl

theorem vtStep_cr (s : VtLite) (rest : List Char) :
    vtStep s ('\r' :: rest) = ({ s with cursor_col := 0, wrap_pending := false }, rest) := rfl

theorem vtStep_lf (s : VtLite) (rest : List Char) :
    vtStep s ('\n' :: rest) = (({ s with wrap_pending := false } : VtLite).line_feed, rest) := rfl

theorem line_feed_lineSt (C R : Nat) (g : List (List Cell)) (ρ : Nat) (hρ : ρ + 1 < R) :
    (lineSt C R g ρ 0 false).line_feed = lineSt C R g (ρ + 1) 0 false := by
  show (if 0 ≤ ρ ∧ ρ ≤ R - 1 then
          if ρ = R - 1 then (lineSt C R g ρ 0 false).scroll_region_up 0 (R - 1) 1
          else { lineSt C R g ρ 0 false with cursor_row := min (ρ + 1) (R - 1) }
        else { lineSt C R g ρ 0 false with cursor_row := min (ρ + 1) (R - 1) })
      = lineSt C R g (ρ + 1) 0 false
  rw [if_pos (show 0 ≤ ρ ∧ ρ ≤ R - 1 by omega), if_neg (show ¬ρ = R - 1 by omega),
    show min (ρ + 1) (R - 1) = ρ + 1 from by omega]
  exact rfl

theorem feed_crlf (C R : Nat) (g : List (List Cell)) (ρ j : Nat) (w : Bool)
    (rest : List Char) (hρ : ρ + 1 < R) :
    (lineSt C R g ρ j w).feed ('\r' :: '\n' :: rest)
      = (lineSt C R g (ρ + 1) 0 false).feed rest := by
  rw [feed_step (List.cons_ne_nil _ _), vtStep_cr]
  show (lineSt C R g ρ 0 false).feed ('\n' :: rest) = _
  rw [feed_step (List.cons_ne_nil _ _), vtStep_lf]
  show ((lineSt C R g ρ 0 false).line_feed).feed rest = _
  rw [line_feed_lineSt C R g ρ hρ]

theorem feed_joinCRLF : ∀ (ls : List (List Char)) (C R : Nat) (g : List (List Cell)) (ρ : Nat),
    (∀ l ∈ ls, (∀ c ∈ l, goodChar c) ∧ l.length ≤ C) →
    ρ + ls.length ≤ R → 1 ≤ C → ρ < R →
    ((lineSt C R g ρ 0 false).feed (joinCRLF ls)).lines = placeGrid g ρ ls := by
  intro ls
  induction ls with
  | nil =>
    intro C R g ρ _ _ _ _
    exact rfl
  | cons l ls ih =>
    cases ls with
    | nil =>
      intro C R g ρ hgood _ hC hρ
      rw [show joinCRLF [l] = l from rfl]
      have h1 := feed_writeChars (hgood l (List.mem_cons_self l [])).1 (lineSt C R g ρ 0 false) []
      rw [List.append_nil] at h1
      rw [h1, feed_nil]
      rw [writeChars_line l C R g ρ 0 (hgood l (List.mem_cons_self l [])).1
        (by have := (hgood l (List.mem_cons_self l [])).2; omega) (by omega) hρ]
      exact rfl
    | cons l2 ls2 =>
      intro C R g ρ hgood hk hC hρ
      rw [show joinCRLF (l :: l2 :: ls2) = l ++ '\r' :: '\n' :: joinCRLF (l2 :: ls2) from rfl]
      rw [feed_writeChars (hgood l (List.mem_cons_self l (l2 :: ls2))).1 _ _]
      rw [writeChars_line l C R g ρ 0 (hgood l (List.mem_cons_self l (l2 :: ls2))).1
        (by have := (hgood l (List.mem_cons_self l (l2 :: ls2))).2; omega) (by omega) hρ]
      rw [List.length_cons, List.length_cons] at hk
      rw [feed_crlf C R _ ρ _ _ _ (by omega)]
      rw [ih C R (listModify g ρ fun row => placeChars row 0 l) (ρ + 1)
        (fun x hx => hgood x (List.mem_cons_of_mem l hx))
        (by rw [List.length_cons]; omega) hC (by omega)]
      exact rfl

theorem set_append_len (l1 l2 : List α) (x : α) :
    (l1 ++ l2).set l1.length x = l1 ++ l2.set 0 x := by
  induction l1 with
  | nil => rfl
  | cons a t ih =>
    show a :: (t ++ l2).set t.length x = a :: (t ++ l2.set 0 x)
    rw [ih]

theorem placeChars_append : ∀ (cs : List Char) (pre : List Cell) (n : Nat), cs.length ≤ n →
    placeChars (pre ++ List.replicate n blank_cell) pre.length cs
      = pre ++ cs.map cellOf ++ List.replicate (n - cs.length) blank_cell := by
  intro cs
  induction cs with
  | nil =>
    intro pre n _
    simp [placeChars]
  | cons c t ih =>
    intro pre n h
    cases n with
    | zero =>
      rw [List.length_cons] at h
      omega
    | succ m =>
      show placeChars ((pre ++ List.replicate (m + 1) blank_cell).set pre.length (cellOf c))
        (pre.length + 1) t = _
      rw [set_append_len]
      rw [show (List.replicate (m + 1) blank_cell).set 0 (cellOf c)
            = cellOf c :: List.replicate m blank_cell from by rw [List.replicate_succ]; rfl]
      rw [show pre ++ cellOf c :: List.replicate m blank_cell
            = (pre ++ [cellOf c]) ++ List.replicate m blank_cell from by simp]
      rw [show pre.length + 1 = (pre ++ [cellOf c]).length from by simp]
      rw [ih (pre ++ [cellOf c]) m (by rw [List.length_cons] at h; omega)]
      simp [Nat.succ_sub_succ]

theorem place_make_row (l : List Char) (C : Nat) (h : l.length ≤ C) :
    placeChars (make_row C) 0 l = l.map cellOf ++ List.replicate (C - l.length) blank_cell := by
  have h2 := placeChars_append l [] C h
  simpa using h2

theorem singleton_eq_space (c : Char) : (String.singleton c = " ") ↔ (c = ' ') := by
  constructor
  · intro h
    have h2 : [c] = [' '] := congrArg String.data h
    simpa using h2
  · intro h
    rw [h]
    rfl

theorem dropWhile_blanks (X : List Cell) : ∀ (k : Nat),
    List.dropWhile (fun c => decide (c.text = " ")) (List.replicate k blank_cell ++ X)
      = List.dropWhile (fun c => decide (c.text = " ")) X := by
  intro k
  induction k with
  | zero => rfl
  | succ m ih =>
    rw [List.replicate_succ, List.cons_append, List.dropWhile_cons,
      if_pos (show decide (blank_cell.text = " ") = true from rfl)]
    exact ih

theorem dropWhile_cells (l : List Char) :
    List.dropWhile (fun c => decide (c.text = " ")) (l.map cellOf)
      = (List.dropWhile (fun c => decide (c = ' ')) l).map cellOf := by
  induction l with
  | nil => rfl
  | cons c t ih =>
    rw [List.map_cons, List.dropWhile_cons, List.dropWhile_cons]
    rw [show decide ((cellOf c).text = " ") = decide (c = ' ') from
      decide_eq_decide.mpr (singleton_eq_space c)]
    by_cases hc : c = ' '
    · rw [if_pos (decide_eq_true hc), if_pos (decide_eq_true hc)]
      exact ih
    · rw [if_neg (by simp [hc]), if_neg (by simp [hc])]
      rfl

theorem rowEnd_place (l : List Char) (k : Nat) :
    rowEnd (l.map cellOf ++ List.replicate k blank_cell) = (trimR l).length := by
  unfold rowEnd trimR
  rw [List.reverse_append, List.reverse_replicate, dropWhile_blanks, ← List.map_reverse,
    dropWhile_cells, List.length_map, List.length_reverse]

theorem take_len_append (l1 l2 : List α) : (l1 ++ l2).take l1.length = l1 := by
  induction l1 with
  | nil => rfl
  | cons a t ih =>
    show a :: (t ++ l2).take t.length = a :: t
    rw [ih]

theorem take_append_le (A B : List α) : ∀ (e : Nat), e ≤ A.length → (A ++ B).take e = A.take e := by
  induction A with
  | nil =>
    intro e h
    rw [List.length_nil] at h
    rw [Nat.le_zero.mp h]
    rfl
  | cons a t ih =>
    intro e h
    cases e with
    | zero => rfl
    | succ e2 =>
      show a :: (t ++ B).take e2 = a :: t.take e2
      rw [ih e2 (by rw [List.length_cons] at h; omega)]

theorem take_map_cellOf : ∀ (l : List Char) (n : Nat), (l.map cellOf).take n = (l.take n).map cellOf := by
  intro l
  induction l with
  | nil =>
    intro n
    cases n <;> rfl
  | cons c t ih =>
    intro n
    cases n with
    | zero => rfl
    | succ n2 =>
      show cellOf c :: (t.map cellOf).take n2 = cellOf c :: (t.take n2).map cellOf
      rw [ih n2]

theorem trimR_decomp (l : List Char) :
    l = trimR l ++ (List.takeWhile (fun c => decide (c = ' ')) l.reverse).reverse := by
  unfold trimR
  rw [← List.reverse_append, List.takeWhile_append_dropWhile, List.reverse_reverse]

theorem take_trimR (l : List Char) : l.take (trimR l).length = trimR l := by
  have h := take_len_append (trimR l) (List.takeWhile (fun c => decide (c = ' ')) l.reverse).reverse
  rw [← trimR_decomp l] at h
  exact h

theorem length_trimR_le (l : List Char) : (trimR l).length ≤ l.length := by
  unfold trimR
  rw [List.length_reverse]
  have h := (List.dropWhile_sublist (l := l.reverse) (fun c => decide (c = ' '))).length_le
  rw [List.length_reverse] at h
  exact h

theorem headD_style (l : List Char) (k : Nat) :
    ((l.map cellOf ++ List.replicate k blank_cell).headD blank_cell).style = CellStyle.default := by
  cases l with
  | nil =>
    cases k with
    | zero => rfl
    | succ m =>
      rw [List.map_nil, List.nil_append, List.replicate_succ]
      rfl
  | cons c t => rfl

theorem applied_default : applied_style CellStyle.default = CellStyle.default := rfl

theorem string_mk_append (a : List Char) (b : List Char) :
    String.mk a ++ String.mk b = String.mk (a ++ b) := rfl

theorem segsOf_default : ∀ (m : List Char) (acc : List Char),
    segsOf (m.map cellOf) (String.mk acc) CellStyle.default
      = [segment_json (String.mk (acc ++ m)) CellStyle.default] := by
  intro m
  induction m with
  | nil =>
    intro acc
    rw [List.map_nil]
    show [segment_json (String.mk acc) CellStyle.default] = _
    rw [List.append_nil]
  | cons c t ih =>
    intro acc
    rw [List.map_cons]
    show segsOf (t.map cellOf) (String.mk acc ++ String.singleton c) CellStyle.default = _
    rw [show String.mk acc ++ String.singleton c = String.mk (acc ++ [c]) from rfl]
    rw [ih (acc ++ [c])]
    rw [List.append_assoc]
    rfl

theorem lineText_place (l : List Char) (k : Nat) :
    lineText (lineValue (l.map cellOf ++ List.replicate k blank_cell)) = String.mk (trimR l) := by
  unfold lineValue
  dsimp only
  rw [rowEnd_place l k]
  by_cases he : (trimR l).length = 0
  · rw [if_pos he]
    rw [List.length_eq_zero.mp he]
    rfl
  · rw [if_neg he]
    rw [headD_style l k, applied_default]
    rw [take_append_le (l.map cellOf) (List.replicate k blank_cell) (trimR l).length
      (by rw [List.length_map]; exact length_trimR_le l)]
    rw [take_map_cellOf l (trimR l).length, take_trimR l]
    show lineText ⟨segsOf (List.map cellOf (trimR l)) (String.mk []) CellStyle.default⟩
      = String.mk (trimR l)
    rw [segsOf_default (trimR l) [], List.nil_append]
    rfl

theorem lineText_row (l : List Char) (C : Nat) (h : l.length ≤ C) :
    lineText (lineValue (placeChars (make_row C) 0 l)) = String.mk (trimR l) := by
  rw [place_make_row l C h, lineText_place]

theorem lineText_blank (C : Nat) : lineText (lineValue (make_row C)) = "" :=
  lineText_place [] C

theorem placeGrid_get? : ∀ (ls : List (List Char)) (g : List (List Cell)) (ρ i : Nat),
    (placeGrid g ρ ls).get? i
      = if ρ ≤ i ∧ i < ρ + ls.length
        then (g.get? i).map fun row => placeChars row 0 (ls.getD (i - ρ) [])
        else g.get? i := by
  intro ls
  induction ls with
  | nil =>
    intro g ρ i
    rw [if_neg (by rw [List.length_nil]; omega)]
    rfl
  | cons l rest ih =>
    intro g ρ i
    show (placeGrid (listModify g ρ fun row => placeChars row 0 l) (ρ + 1) rest).get? i = _
    rw [ih]
    by_cases h1 : ρ + 1 ≤ i ∧ i < ρ + 1 + rest.length
    · rw [if_pos h1, if_pos (show ρ ≤ i ∧ i < ρ + (l :: rest).length by
        rw [List.length_cons]; omega)]
      rw [listModify_get?_ne g ρ i _ (by omega)]
      rw [show i - ρ = (i - (ρ + 1)) + 1 from by omega, List.getD_cons_succ]
    · rw [if_neg h1]
      by_cases h2 : i = ρ
      · subst h2
        rw [if_pos (show i ≤ i ∧ i < i + (l :: rest).length by rw [List.length_cons]; omega)]
        rw [listModify_get?_self]
        rw [Nat.sub_self, List.getD_cons_zero]
      · by_cases h3 : ρ ≤ i ∧ i < ρ + (l :: rest).length
        · rw [List.length_cons] at h3
          omega
        · rw [if_neg h3]
          rw [listModify_get?_ne g ρ i _ (fun he => h2 he.symm)]

theorem get?_replicate_lt (a : α) : ∀ (n i : Nat), i < n → (List.replicate n a).get? i = some a := by
  intro n
  induction n with
  | zero =>
    intro i h
    omega
  | succ m ih =>
    intro i h
    rw [List.replicate_succ]
    cases i with
    | zero => rfl
    | succ i2 =>
      show (List.replicate m a).get? i2 = some a
      exact ih i2 (by omega)

theorem getD_eq_get? (l : List α) (n : Nat) (d : α) : l.getD n d = (l.get? n).getD d := by
  rw [List.getD_eq_getElem?_getD, List.get?_eq_getElem?]

theorem frame_pure_text (ls : List (List Char)) (C R : Nat)
    (hgood : ∀ l ∈ ls, (∀ c ∈ l, goodChar c) ∧ l.length ≤ C)
    (hk : ls.length ≤ R) (hC : 1 ≤ C) (hR : 1 ≤ R) (i : Nat) (hi : i < R) :
    lineText ((((VtLite.new C R).feed (joinCRLF ls)).into_frame).lines.getD i ⟨[]⟩)
      = String.mk (trimR (ls.getD i [])) := by
  have hfeed : ((VtLite.new C R).feed (joinCRLF ls)).lines
      = placeGrid (List.replicate R (make_row C)) 0 ls :=
    feed_joinCRLF ls C R (List.replicate R (make_row C)) 0 hgood (by omega) hC (by omega)
  show lineText ((((VtLite.new C R).feed (joinCRLF ls)).lines.map lineValue).getD i ⟨[]⟩) = _
  rw [hfeed]
  rw [getD_eq_get?, List.get?_map]
  rw [placeGrid_get?]
  by_cases hcase : i < ls.length
  · rw [if_pos (show 0 ≤ i ∧ i < 0 + ls.length by omega)]
    rw [get?_replicate_lt (make_row C) R i hi]
    rw [Nat.sub_zero]
    show lineText (lineValue (placeChars (make_row C) 0 (ls.getD i []))) = _
    have hmem : ls.getD i [] ∈ ls := by
      rw [List.getD_eq_getElem ls [] hcase]
      exact List.getElem_mem _
    exact lineText_row (ls.getD i []) C (hgood (ls.getD i []) hmem).2
  · rw [if_neg (show ¬(0 ≤ i ∧ i < 0 + ls.length) by omega)]
    rw [get?_replicate_lt (make_row C) R i hi]
    show lineText (lineValue (make_row C)) = _
    rw [List.getD_eq_default ls [] (by omega)]
    exact lineText_blank C

/-- **C4, counterexample to the original claim.** For the pure-text input
`"ab\ncd"`, line 1 of the frame has concatenated segment text `"  cd"`,
not `"cd"` as in the input split on newline: the bare line feed moves the
cursor down but does not return it to column 0, so `cd` lands at columns
2 and 3. -/
theorem C4_counterexample :
    lineText ((build_styled_frame ("ab\ncd".toList) 20 6).lines.getD 1 ⟨[]⟩) = "  cd"
    ∧ (splitNl ("ab\ncd".toList)).getD 1 [] = "cd".toList
    ∧ ("  cd" : String) ≠ String.mk ("cd".toList) := by
  refine ⟨by decide, by decide, by decide⟩

/-- **C4 (amended).** For pure-text input given as lines of printable
width-1 characters joined by `\r\n` (carriage return + line feed, so that
each line starts at column 0), with at most `safe_rows` lines each of
length at most `safe_cols`, `build_styled_frame` produces, at every row
index `i < safe_rows`, a frame line whose concatenated segment text is
exactly the `i`-th input line right-trimmed of trailing spaces (and empty
for rows beyond the input). With a bare `\n` separator this fails, since
the line feed does not return the carriage. -/
theorem C4_pure_text_lines (ls : List (List Char)) (cols rows : Nat)
    (hgood : ∀ l ∈ ls, (∀ c ∈ l, goodChar c) ∧ l.length ≤ natClamp cols 20 300)
    (hk : ls.length ≤ natClamp rows 6 200) :
    ∀ i : Nat, i < natClamp rows 6 200 →
      lineText ((build_styled_frame (joinCRLF ls) cols rows).lines.getD i ⟨[]⟩)
        = String.mk (trimR (ls.getD i [])) := by
  intro i hi
  exact frame_pure_text ls (natClamp cols 20 300) (natClamp rows 6 200) hgood hk
    (by unfold natClamp; omega) (by unfold natClamp; omega) i hi

theorem C4_pure_text_lines_witness :
    lineText ((build_styled_frame (joinCRLF [['h', 'i', ' '], ['y', 'o']]) 80 25).lines.getD 1 ⟨[]⟩)
      = String.mk (trimR ([['h', 'i', ' '], ['y', 'o']].getD 1 [])) :=
  C4_pure_text_lines [['h', 'i', ' '], ['y', 'o']] 80 25 (by decide) (by decide) 1 (by decide)
